import Mathlib

/-!
Verification of the arbitrage monitor core (arbitrage_monitor_v2).

Shallow embedding of the Python sources into Lean 4:
prices, sizes, rates and wall-clock times are rationals (the source
carries Decimal / float; the float conversions in the relevant code
paths are value-preserving for the properties below), Python dicts are
association lists that preserve insertion order, and `datetime.now()`
is an explicit `now` parameter.
-/

/-- One side of the top of book (models `PriceLevel`-like objects with
`price` and `size` read by the monitor). -/
structure PriceLevel where
  price : ℚ
  size : ℚ
deriving DecidableEq, Repr

/-- Top-of-book data as consumed by the monitor
(`core.adapters.exchanges.models.OrderBookData`): only `best_bid` and
`best_ask` are read, each possibly absent. -/
structure OrderBookData where
  best_bid : Option PriceLevel
  best_ask : Option PriceLevel
deriving DecidableEq, Repr

/-- `SpreadData` from `analysis/spread_calculator.py`. -/
structure SpreadData where
  symbol : String
  exchange_buy : String
  exchange_sell : String
  price_buy : ℚ
  price_sell : ℚ
  size_buy : ℚ
  size_sell : ℚ
  spread_abs : ℚ
  spread_pct : ℚ
deriving DecidableEq, Repr

/-- Association-list lookup: models Python `dict[key]` / `dict.get(key)`
for insertion-ordered dicts. -/
def alookup {α : Type} (k : String) : List (String × α) → Option α
  | [] => none
  | (k', v) :: rest => if k' = k then some v else alookup k rest

/-- Association-list update: models Python `dict[key] = value`
(replaces in place, or appends a fresh key at the end). -/
def aupdate {α : Type} (k : String) (v : α) : List (String × α) → List (String × α)
  | [] => [(k, v)]
  | (k', v') :: rest => if k' = k then (k, v) :: rest else (k', v') :: aupdate k v rest

/-- Association-list delete: models Python `del dict[key]`. -/
def adelete {α : Type} (k : String) : List (String × α) → List (String × α)
  | [] => []
  | (k', v') :: rest => if k' = k then rest else (k', v') :: adelete k rest

/-- Keys of an association list, in order. -/
def akeys {α : Type} (l : List (String × α)) : List String := l.map Prod.fst

/-- `SpreadCalculator._validate_orderbook` (spread_calculator.py, lines
123-146): both sides present, prices positive, sizes positive, and
bid strictly below ask. -/
def validateOrderbook (orderbook : OrderBookData) : Bool :=
  match orderbook.best_bid, orderbook.best_ask with
  | some bid, some ask =>
    !(bid.price ≤ 0) && !(ask.price ≤ 0) && !(bid.size ≤ 0) && !(ask.size ≤ 0) &&
      !(bid.price ≥ ask.price)
  | _, _ => false

/-- The body of the pair loop of `SpreadCalculator.calculate_spreads`
(spread_calculator.py, lines 68-109): validate both books, then test
direction 1 (buy at `ex1`, sell at `ex2`) and direction 2 (buy at
`ex2`, sell at `ex1`). -/
def pairSpreads (symbol ex1 : String) (ob1 : OrderBookData) (ex2 : String)
    (ob2 : OrderBookData) : List SpreadData :=
  if validateOrderbook ob1 && validateOrderbook ob2 then
    match ob1.best_bid, ob1.best_ask, ob2.best_bid, ob2.best_ask with
    | some bid1, some ask1, some bid2, some ask2 =>
      (if bid2.price > ask1.price then
        let spread_abs := bid2.price - ask1.price
        let spread_pct := (spread_abs / ask1.price) * 100
        if spread_pct > 0 then
          [{ symbol := symbol, exchange_buy := ex1, exchange_sell := ex2,
             price_buy := ask1.price, price_sell := bid2.price,
             size_buy := ask1.size, size_sell := bid2.size,
             spread_abs := spread_abs, spread_pct := spread_pct }]
        else []
      else []) ++
      (if bid1.price > ask2.price then
        let spread_abs := bid1.price - ask2.price
        let spread_pct := (spread_abs / ask2.price) * 100
        if spread_pct > 0 then
          [{ symbol := symbol, exchange_buy := ex2, exchange_sell := ex1,
             price_buy := ask2.price, price_sell := bid1.price,
             size_buy := ask2.size, size_sell := bid1.size,
             spread_abs := spread_abs, spread_pct := spread_pct }]
        else []
      else [])
    | _, _, _, _ => []
  else []

/-- The double loop of `calculate_spreads`: every unordered pair of
venues, in the insertion order of the dict, visited once with the
earlier venue as `ex1`. -/
def calcSpreadsAux (symbol : String) : List (String × OrderBookData) → List SpreadData
  | [] => []
  | (ex1, ob1) :: rest =>
    (rest.map (fun p => pairSpreads symbol ex1 ob1 p.1 p.2)).flatten ++
      calcSpreadsAux symbol rest

/-- `SpreadCalculator.calculate_spreads` (spread_calculator.py, lines
45-121), with the orderbook dict as an insertion-ordered association
list. The debug printing at the end has no effect on the result. -/
def calculateSpreads (symbol : String) (orderbooks : List (String × OrderBookData)) :
    List SpreadData :=
  calcSpreadsAux symbol orderbooks

/-- Unpacking a successful `_validate_orderbook`. -/
theorem validateOrderbook_spec {ob : OrderBookData} (h : validateOrderbook ob = true) :
    ∃ bid ask, ob.best_bid = some bid ∧ ob.best_ask = some ask ∧
      0 < bid.price ∧ 0 < ask.price ∧ 0 < bid.size ∧ 0 < ask.size ∧
      bid.price < ask.price := by
  unfold validateOrderbook at h
  rcases hbb : ob.best_bid with _ | bid <;> rcases hba : ob.best_ask with _ | ask <;>
    rw [hbb, hba] at h
  · simp at h
  · simp at h
  · simp at h
  · simp only [Bool.and_eq_true, Bool.not_eq_true', decide_eq_false_iff_not, not_le] at h
    exact ⟨bid, ask, rfl, rfl, h.1.1.1.1, h.1.1.1.2, h.1.1.2, h.1.2, h.2⟩

/-- Characterization of the spreads emitted for one visited pair. -/
theorem mem_pairSpreads {s : SpreadData} {sym ex1 ex2 : String}
    {ob1 ob2 : OrderBookData}
    (h : s ∈ pairSpreads sym ex1 ob1 ex2 ob2) :
    validateOrderbook ob1 = true ∧ validateOrderbook ob2 = true ∧
    ∃ bid1 ask1 bid2 ask2,
      ob1.best_bid = some bid1 ∧ ob1.best_ask = some ask1 ∧
      ob2.best_bid = some bid2 ∧ ob2.best_ask = some ask2 ∧
      ((ask1.price < bid2.price ∧
        s = { symbol := sym, exchange_buy := ex1, exchange_sell := ex2,
              price_buy := ask1.price, price_sell := bid2.price,
              size_buy := ask1.size, size_sell := bid2.size,
              spread_abs := bid2.price - ask1.price,
              spread_pct := (bid2.price - ask1.price) / ask1.price * 100 }) ∨
       (ask2.price < bid1.price ∧
        s = { symbol := sym, exchange_buy := ex2, exchange_sell := ex1,
              price_buy := ask2.price, price_sell := bid1.price,
              size_buy := ask2.size, size_sell := bid1.size,
              spread_abs := bid1.price - ask2.price,
              spread_pct := (bid1.price - ask2.price) / ask2.price * 100 })) := by
  unfold pairSpreads at h
  by_cases hv : (validateOrderbook ob1 && validateOrderbook ob2) = true
  · rw [if_pos hv] at h
    rw [Bool.and_eq_true] at hv
    refine ⟨hv.1, hv.2, ?_⟩
    obtain ⟨bid1, ask1, hb1, ha1, _⟩ := validateOrderbook_spec hv.1
    obtain ⟨bid2, ask2, hb2, ha2, _⟩ := validateOrderbook_spec hv.2
    rw [hb1, ha1, hb2, ha2] at h
    refine ⟨bid1, ask1, bid2, ask2, hb1, ha1, hb2, ha2, ?_⟩
    rcases List.mem_append.mp h with h1 | h2
    · left
      by_cases hc : bid2.price > ask1.price
      · rw [if_pos hc] at h1
        constructor
        · exact hc
        · by_cases hp : (bid2.price - ask1.price) / ask1.price * 100 > 0
          · rw [if_pos hp] at h1; simpa using h1
          · rw [if_neg hp] at h1; simp at h1
      · rw [if_neg hc] at h1; simp at h1
    · right
      by_cases hc : bid1.price > ask2.price
      · rw [if_pos hc] at h2
        constructor
        · exact hc
        · by_cases hp : (bid1.price - ask2.price) / ask2.price * 100 > 0
          · rw [if_pos hp] at h2; simpa using h2
          · rw [if_neg hp] at h2; simp at h2
      · rw [if_neg hc] at h2; simp at h2
  · rw [if_neg hv] at h
    simp at h

/-- If the direction condition holds for a validated visited pair, the
corresponding record is emitted for that pair. -/
theorem pairSpreads_emits_dir1 {sym ex1 ex2 : String} {ob1 ob2 : OrderBookData}
    {bid1 ask1 bid2 ask2 : PriceLevel}
    (hv1 : validateOrderbook ob1 = true) (hv2 : validateOrderbook ob2 = true)
    (hb1 : ob1.best_bid = some bid1) (ha1 : ob1.best_ask = some ask1)
    (hb2 : ob2.best_bid = some bid2) (ha2 : ob2.best_ask = some ask2)
    (hc : ask1.price < bid2.price) :
    { symbol := sym, exchange_buy := ex1, exchange_sell := ex2,
      price_buy := ask1.price, price_sell := bid2.price,
      size_buy := ask1.size, size_sell := bid2.size,
      spread_abs := bid2.price - ask1.price,
      spread_pct := (bid2.price - ask1.price) / ask1.price * 100 : SpreadData } ∈
      pairSpreads sym ex1 ob1 ex2 ob2 := by
  have hpa1 : 0 < ask1.price := by
    obtain ⟨b, a, hb, ha, _, hap, _⟩ := validateOrderbook_spec hv1
    rw [ha1] at ha
    injection ha with ha'
    rw [ha']
    exact hap
  have hp : (bid2.price - ask1.price) / ask1.price * 100 > 0 := by
    have h1 : 0 < bid2.price - ask1.price := by linarith
    have := div_pos h1 hpa1
    linarith
  unfold pairSpreads
  rw [if_pos (by rw [hv1, hv2]; rfl), hb1, ha1, hb2, ha2]
  apply List.mem_append.mpr
  left
  rw [if_pos hc, if_pos hp]
  simp

/-- Same, for direction 2 of the visited pair (buy at `ex2`). -/
theorem pairSpreads_emits_dir2 {sym ex1 ex2 : String} {ob1 ob2 : OrderBookData}
    {bid1 ask1 bid2 ask2 : PriceLevel}
    (hv1 : validateOrderbook ob1 = true) (hv2 : validateOrderbook ob2 = true)
    (hb1 : ob1.best_bid = some bid1) (ha1 : ob1.best_ask = some ask1)
    (hb2 : ob2.best_bid = some bid2) (ha2 : ob2.best_ask = some ask2)
    (hc : ask2.price < bid1.price) :
    { symbol := sym, exchange_buy := ex2, exchange_sell := ex1,
      price_buy := ask2.price, price_sell := bid1.price,
      size_buy := ask2.size, size_sell := bid1.size,
      spread_abs := bid1.price - ask2.price,
      spread_pct := (bid1.price - ask2.price) / ask2.price * 100 : SpreadData } ∈
      pairSpreads sym ex1 ob1 ex2 ob2 := by
  have hpa2 : 0 < ask2.price := by
    obtain ⟨b, a, hb, ha, _, hap, _⟩ := validateOrderbook_spec hv2
    rw [ha2] at ha
    injection ha with ha'
    rw [ha']
    exact hap
  have hp : (bid1.price - ask2.price) / ask2.price * 100 > 0 := by
    have h1 : 0 < bid1.price - ask2.price := by linarith
    have := div_pos h1 hpa2
    linarith
  unfold pairSpreads
  rw [if_pos (by rw [hv1, hv2]; rfl), hb1, ha1, hb2, ha2]
  apply List.mem_append.mpr
  right
  rw [if_pos hc, if_pos hp]
  simp

/-- Lookup in an association list with distinct keys finds exactly the
member pair. -/
theorem mem_alookup {α : Type} {l : List (String × α)} {k : String} {v : α}
    (hnd : (akeys l).Nodup) (h : (k, v) ∈ l) : alookup k l = some v := by
  induction l with
  | nil => simp at h
  | cons hd tl ih =>
    rw [akeys, List.map_cons, List.nodup_cons] at hnd
    rcases List.mem_cons.mp h with h1 | h1
    · rw [← h1]
      unfold alookup
      rw [if_pos rfl]
    · unfold alookup
      have hk : hd.1 ≠ k := by
        intro he
        exact hnd.1 (he ▸ (List.mem_map.mpr ⟨(k, v), h1, rfl⟩))
      rcases hd with ⟨k', v'⟩
      rw [if_neg hk]
      exact ih hnd.2 h1

/-- A successful lookup yields a member pair. -/
theorem alookup_mem {α : Type} {l : List (String × α)} {k : String} {v : α}
    (h : alookup k l = some v) : (k, v) ∈ l := by
  induction l with
  | nil => simp [alookup] at h
  | cons hd tl ih =>
    rcases hd with ⟨k', v'⟩
    unfold alookup at h
    by_cases he : k' = k
    · rw [if_pos he] at h
      injection h with h
      rw [← he, ← h]
      exact List.mem_cons_self _ _
    · rw [if_neg he] at h
      exact List.mem_cons_of_mem _ (ih h)

/-- Each emitted spread comes from a pair visited in list order: the
buy-side candidate appears, and the other venue appears after it or
before it. -/
theorem mem_calcSpreadsAux {s : SpreadData} {sym : String}
    {l : List (String × OrderBookData)} (h : s ∈ calcSpreadsAux sym l) :
    ∃ ex1 ob1 ex2 ob2,
      (∃ l1 l2, l = l1 ++ (ex1, ob1) :: l2 ∧ (ex2, ob2) ∈ l2) ∧
      s ∈ pairSpreads sym ex1 ob1 ex2 ob2 := by
  induction l with
  | nil => simp [calcSpreadsAux] at h
  | cons hd tl ih =>
    rcases hd with ⟨e, o⟩
    rw [calcSpreadsAux] at h
    rcases List.mem_append.mp h with h1 | h1
    · obtain ⟨L, hL, hsL⟩ := List.mem_flatten.mp h1
      obtain ⟨p, hp, hpe⟩ := List.mem_map.mp hL
      refine ⟨e, o, p.1, p.2, ⟨[], tl, by simp, ?_⟩, by rw [hpe]; exact hsL⟩
      simpa using hp
    · obtain ⟨ex1, ob1, ex2, ob2, ⟨l1, l2, hdec, hmem⟩, hs⟩ := ih h1
      exact ⟨ex1, ob1, ex2, ob2, ⟨(e, o) :: l1, l2, by rw [hdec]; rfl, hmem⟩, hs⟩

/-- Everything emitted for a pair visited in list order is in the
total output. -/
theorem calcSpreadsAux_sub {sym ex1 ex2 : String} {ob1 ob2 : OrderBookData}
    (l1 l2 : List (String × OrderBookData)) (hmem : (ex2, ob2) ∈ l2) :
    pairSpreads sym ex1 ob1 ex2 ob2 ⊆ calcSpreadsAux sym (l1 ++ (ex1, ob1) :: l2) := by
  induction l1 with
  | nil =>
    intro s hs
    rw [List.nil_append, calcSpreadsAux]
    apply List.mem_append.mpr
    left
    apply List.mem_flatten.mpr
    exact ⟨pairSpreads sym ex1 ob1 ex2 ob2, List.mem_map.mpr ⟨(ex2, ob2), hmem, rfl⟩, hs⟩
  | cons hd tl ih =>
    intro s hs
    rcases hd with ⟨e, o⟩
    rw [List.cons_append, calcSpreadsAux]
    exact List.mem_append.mpr (Or.inr (ih hs))

/-- Two list members with distinct keys occur in one of the two
orders. -/
theorem mem_mem_pairBefore {α : Type} {l : List (String × α)} {A B : String}
    {vA vB : α} (hnd : (akeys l).Nodup) (h1 : (A, vA) ∈ l) (h2 : (B, vB) ∈ l)
    (hne : A ≠ B) :
    (∃ l1 l2, l = l1 ++ (A, vA) :: l2 ∧ (B, vB) ∈ l2) ∨
    (∃ l1 l2, l = l1 ++ (B, vB) :: l2 ∧ (A, vA) ∈ l2) := by
  induction l with
  | nil => simp at h1
  | cons hd tl ih =>
    rw [akeys, List.map_cons, List.nodup_cons] at hnd
    rcases List.mem_cons.mp h1 with he1 | he1 <;> rcases List.mem_cons.mp h2 with he2 | he2
    · rw [← he2] at he1
      injection he1 with heq _
      exact absurd heq hne
    · exact Or.inl ⟨[], tl, by rw [← he1]; rfl, he2⟩
    · exact Or.inr ⟨[], tl, by rw [← he2]; rfl, he1⟩
    · rcases ih hnd.2 he1 he2 with ⟨l1, l2, hdec, hm⟩ | ⟨l1, l2, hdec, hm⟩
      · exact Or.inl ⟨hd :: l1, l2, by rw [hdec]; rfl, hm⟩
      · exact Or.inr ⟨hd :: l1, l2, by rw [hdec]; rfl, hm⟩

/-- Provenance of an emitted spread: both named venues are in the
input dict, both books validated, and the fields are determined by the
buy side ask and the sell side bid, whose prices cross. -/
theorem mem_calculateSpreads_lookup {sym : String}
    {obs : List (String × OrderBookData)} {s : SpreadData}
    (hnd : (akeys obs).Nodup) (h : s ∈ calculateSpreads sym obs) :
    ∃ obBuy obSell bidB askB bidS askS,
      alookup s.exchange_buy obs = some obBuy ∧
      alookup s.exchange_sell obs = some obSell ∧
      validateOrderbook obBuy = true ∧ validateOrderbook obSell = true ∧
      obBuy.best_bid = some bidB ∧ obBuy.best_ask = some askB ∧
      obSell.best_bid = some bidS ∧ obSell.best_ask = some askS ∧
      askB.price < bidS.price ∧
      s.price_buy = askB.price ∧ s.price_sell = bidS.price ∧
      s.spread_pct = (bidS.price - askB.price) / askB.price * 100 := by
  obtain ⟨ex1, ob1, ex2, ob2, ⟨l1, l2, hdec, hmem2⟩, hs⟩ := mem_calcSpreadsAux h
  have hm1 : (ex1, ob1) ∈ obs := by
    rw [hdec]
    exact List.mem_append.mpr (Or.inr (List.mem_cons_self _ _))
  have hm2 : (ex2, ob2) ∈ obs := by
    rw [hdec]
    exact List.mem_append.mpr (Or.inr (List.mem_cons_of_mem _ hmem2))
  obtain ⟨hv1, hv2, bid1, ask1, bid2, ask2, hb1, ha1, hb2, ha2, hcase⟩ :=
    mem_pairSpreads hs
  rcases hcase with ⟨hc, rfl⟩ | ⟨hc, rfl⟩
  · exact ⟨ob1, ob2, bid1, ask1, bid2, ask2, mem_alookup hnd hm1,
      mem_alookup hnd hm2, hv1, hv2, hb1, ha1, hb2, ha2, hc, rfl, rfl, rfl⟩
  · exact ⟨ob2, ob1, bid2, ask2, bid1, ask1, mem_alookup hnd hm2,
      mem_alookup hnd hm1, hv2, hv1, hb2, ha2, hb1, ha1, hc, rfl, rfl, rfl⟩

/-- Every emitted spread has a positive percentage and a sell price
above the buy price (no key-distinctness needed: validation runs on
every visited pair). -/
theorem mem_calculateSpreads_pos {sym : String}
    {obs : List (String × OrderBookData)} {s : SpreadData}
    (h : s ∈ calculateSpreads sym obs) :
    0 < s.spread_pct ∧ s.price_buy < s.price_sell := by
  obtain ⟨ex1, ob1, ex2, ob2, _, hs⟩ := mem_calcSpreadsAux h
  obtain ⟨hv1, hv2, bid1, ask1, bid2, ask2, hb1, ha1, hb2, ha2, hcase⟩ :=
    mem_pairSpreads hs
  have hask1 : 0 < ask1.price := by
    obtain ⟨b, a, hb, ha, _, hap, _⟩ := validateOrderbook_spec hv1
    rw [ha1] at ha
    injection ha with ha'
    rw [ha']
    exact hap
  have hask2 : 0 < ask2.price := by
    obtain ⟨b, a, hb, ha, _, hap, _⟩ := validateOrderbook_spec hv2
    rw [ha2] at ha
    injection ha with ha'
    rw [ha']
    exact hap
  rcases hcase with ⟨hc, rfl⟩ | ⟨hc, rfl⟩
  · constructor
    · have h1 : 0 < bid2.price - ask1.price := by linarith
      have := div_pos h1 hask1
      simpa using by linarith
    · simpa using hc
  · constructor
    · have h1 : 0 < bid1.price - ask2.price := by linarith
      have := div_pos h1 hask2
      simpa using by linarith
    · simpa using hc

/-- Validation pins the bid strictly below the ask. -/
theorem validateOrderbook_bid_lt_ask {ob : OrderBookData} {bid ask : PriceLevel}
    (hv : validateOrderbook ob = true) (hb : ob.best_bid = some bid)
    (ha : ob.best_ask = some ask) : bid.price < ask.price := by
  obtain ⟨b, a, hb', ha', _, _, _, _, hlt⟩ := validateOrderbook_spec hv
  rw [hb] at hb'
  rw [ha] at ha'
  injection hb' with e1
  injection ha' with e2
  rw [← e1, ← e2] at hlt
  exact hlt

/-- Claim C1: for a symbol and a venue → orderbook mapping in which
both books of a pair (A, B) pass validation, `calculate_spreads`
emits the direction buy-at-A / sell-at-B exactly when Bid(B) > Ask(A);
any such emission has price_buy = Ask(A), price_sell = Bid(B) and
spread_pct = (Bid(B) − Ask(A)) / Ask(A) × 100; and every emitted
spread has spread_pct > 0 and price_sell > price_buy. -/
theorem c1_calculate_spreads_direction
    (sym A B : String) (obs : List (String × OrderBookData))
    (obA obB : OrderBookData) (bidA askA bidB askB : PriceLevel)
    (hnd : (akeys obs).Nodup)
    (hA : alookup A obs = some obA) (hB : alookup B obs = some obB)
    (hAB : A ≠ B)
    (hvA : validateOrderbook obA = true) (hvB : validateOrderbook obB = true)
    (hbA : obA.best_bid = some bidA) (haA : obA.best_ask = some askA)
    (hbB : obB.best_bid = some bidB) (haB : obB.best_ask = some askB) :
    ((∃ s ∈ calculateSpreads sym obs, s.exchange_buy = A ∧ s.exchange_sell = B) ↔
      askA.price < bidB.price) ∧
    (∀ s ∈ calculateSpreads sym obs, s.exchange_buy = A → s.exchange_sell = B →
      s.price_buy = askA.price ∧ s.price_sell = bidB.price ∧
      s.spread_pct = (bidB.price - askA.price) / askA.price * 100) ∧
    (∀ s ∈ calculateSpreads sym obs, 0 < s.spread_pct ∧ s.price_buy < s.price_sell) := by
  have hdet : ∀ s ∈ calculateSpreads sym obs, s.exchange_buy = A → s.exchange_sell = B →
      s.price_buy = askA.price ∧ s.price_sell = bidB.price ∧
      s.spread_pct = (bidB.price - askA.price) / askA.price * 100 ∧
      askA.price < bidB.price := by
    intro s hs hbuy hsell
    obtain ⟨obBuy, obSell, bidB', askB', bidS', askS', hl1, hl2, _, _,
      _, hba', hbs', _, hc, hpb, hps, hpct⟩ := mem_calculateSpreads_lookup hnd hs
    rw [hbuy, hA] at hl1
    rw [hsell, hB] at hl2
    injection hl1 with e1
    injection hl2 with e2
    rw [← e1, haA] at hba'
    rw [← e2, hbB] at hbs'
    injection hba' with e3
    injection hbs' with e4
    rw [← e3, ← e4] at hc hpct
    rw [← e3] at hpb
    rw [← e4] at hps
    exact ⟨hpb, hps, hpct, hc⟩
  refine ⟨⟨?_, ?_⟩,
    fun s hs h1 h2 =>
      ⟨(hdet s hs h1 h2).1, (hdet s hs h1 h2).2.1, (hdet s hs h1 h2).2.2.1⟩,
    fun s hs => mem_calculateSpreads_pos hs⟩
  · rintro ⟨s, hs, hbuy, hsell⟩
    exact (hdet s hs hbuy hsell).2.2.2
  · intro hc
    rcases mem_mem_pairBefore hnd (alookup_mem hA) (alookup_mem hB) hAB with
      ⟨l1, l2, hdec, hm⟩ | ⟨l1, l2, hdec, hm⟩
    · refine ⟨{ symbol := sym, exchange_buy := A, exchange_sell := B,
                price_buy := askA.price, price_sell := bidB.price,
                size_buy := askA.size, size_sell := bidB.size,
                spread_abs := bidB.price - askA.price,
                spread_pct := (bidB.price - askA.price) / askA.price * 100 },
        ?_, rfl, rfl⟩
      rw [hdec]
      exact calcSpreadsAux_sub l1 l2 hm
        (pairSpreads_emits_dir1 hvA hvB hbA haA hbB haB hc)
    · refine ⟨{ symbol := sym, exchange_buy := A, exchange_sell := B,
                price_buy := askA.price, price_sell := bidB.price,
                size_buy := askA.size, size_sell := bidB.size,
                spread_abs := bidB.price - askA.price,
                spread_pct := (bidB.price - askA.price) / askA.price * 100 },
        ?_, rfl, rfl⟩
      rw [hdec]
      exact calcSpreadsAux_sub l1 l2 hm
        (pairSpreads_emits_dir2 hvB hvA hbB haB hbA haA hc)

/-- Scenario from the specification: venue `edgex` quotes 60000/60010,
venue `lighter` quotes 60050/60060, size 1 on every level. -/
def demoObA : OrderBookData :=
  { best_bid := some { price := 60000, size := 1 },
    best_ask := some { price := 60010, size := 1 } }

/-- Second demo book. -/
def demoObB : OrderBookData :=
  { best_bid := some { price := 60050, size := 1 },
    best_ask := some { price := 60060, size := 1 } }

/-- Demo per-symbol snapshot. -/
def demoObs : List (String × OrderBookData) := [("edgex", demoObA), ("lighter", demoObB)]

/-- Witness for C1 at the demo snapshot. -/
theorem c1_calculate_spreads_direction_witness :
    ((∃ s ∈ calculateSpreads "BTC-USDC-PERP" demoObs,
        s.exchange_buy = "edgex" ∧ s.exchange_sell = "lighter") ↔
      (60010 : ℚ) < 60050) ∧
    (∀ s ∈ calculateSpreads "BTC-USDC-PERP" demoObs,
      s.exchange_buy = "edgex" → s.exchange_sell = "lighter" →
      s.price_buy = 60010 ∧ s.price_sell = 60050 ∧
      s.spread_pct = ((60050 : ℚ) - 60010) / 60010 * 100) ∧
    (∀ s ∈ calculateSpreads "BTC-USDC-PERP" demoObs,
      0 < s.spread_pct ∧ s.price_buy < s.price_sell) :=
  c1_calculate_spreads_direction "BTC-USDC-PERP" "edgex" "lighter" demoObs
    demoObA demoObB
    { price := 60000, size := 1 } { price := 60010, size := 1 }
    { price := 60050, size := 1 } { price := 60060, size := 1 }
    (by decide) (by decide) (by decide) (by decide) (by decide) (by decide)
    (by decide) (by decide) (by decide) (by decide)

/-- Claim C10: with distinct venue keys, the output of
`calculate_spreads` never contains both directions of the same
unordered venue pair: Bid(B) > Ask(A) and Bid(A) > Ask(B) together
contradict the validated bid < ask on both venues. -/
theorem c10_no_double_direction (sym A B : String)
    (obs : List (String × OrderBookData)) (hnd : (akeys obs).Nodup) :
    ¬((∃ s1 ∈ calculateSpreads sym obs, s1.exchange_buy = A ∧ s1.exchange_sell = B) ∧
      (∃ s2 ∈ calculateSpreads sym obs, s2.exchange_buy = B ∧ s2.exchange_sell = A)) := by
  rintro ⟨⟨s1, hs1, hb1, he1⟩, ⟨s2, hs2, hb2, he2⟩⟩
  obtain ⟨oBuy1, oSell1, bb1, ba1, sb1, sa1, hl11, hl12, hv11, hv12,
    hbb1, hba1, hsb1, hsa1, hc1, _⟩ := mem_calculateSpreads_lookup hnd hs1
  obtain ⟨oBuy2, oSell2, bb2, ba2, sb2, sa2, hl21, hl22, hv21, hv22,
    hbb2, hba2, hsb2, hsa2, hc2, _⟩ := mem_calculateSpreads_lookup hnd hs2
  rw [hb1] at hl11
  rw [he1] at hl12
  rw [hb2] at hl21
  rw [he2] at hl22
  rw [hl11] at hl22
  rw [hl12] at hl21
  injection hl22 with eA
  injection hl21 with eB
  rw [← eA] at hsb2 hsa2
  rw [← eB] at hbb2 hba2
  rw [hbb1] at hsb2
  rw [hsa1] at hba2
  injection hsb2 with e1
  injection hba2 with e2
  have hlt1 : bb1.price < ba1.price := validateOrderbook_bid_lt_ask hv11 hbb1 hba1
  have hlt2 : sb1.price < sa1.price := validateOrderbook_bid_lt_ask hv12 hsb1 hsa1
  rw [← e2, ← e1] at hc2
  linarith

/-- Witness for C10 at the demo snapshot. -/
theorem c10_no_double_direction_witness :
    ¬((∃ s1 ∈ calculateSpreads "BTC-USDC-PERP" demoObs,
        s1.exchange_buy = "edgex" ∧ s1.exchange_sell = "lighter") ∧
      (∃ s2 ∈ calculateSpreads "BTC-USDC-PERP" demoObs,
        s2.exchange_buy = "lighter" ∧ s2.exchange_sell = "edgex")) :=
  c10_no_double_direction "BTC-USDC-PERP" "edgex" "lighter" demoObs (by decide)

/-- `aupdate` on a present key keeps the key list. -/
theorem akeys_aupdate_mem {α : Type} {l : List (String × α)} {k : String} (v : α)
    (h : k ∈ akeys l) : akeys (aupdate k v l) = akeys l := by
  induction l with
  | nil => simp [akeys] at h
  | cons hd tl ih =>
    rcases hd with ⟨k', v'⟩
    simp only [akeys, List.map_cons] at h ih ⊢
    rw [aupdate]
    by_cases he : k' = k
    · rw [if_pos he, List.map_cons, he]
    · rw [if_neg he, List.map_cons]
      rcases List.mem_cons.mp h with h1 | h1
      · exact absurd h1.symm he
      · rw [ih h1]

/-- `aupdate` on a fresh key appends it. -/
theorem akeys_aupdate_not_mem {α : Type} {l : List (String × α)} {k : String} (v : α)
    (h : k ∉ akeys l) : akeys (aupdate k v l) = akeys l ++ [k] := by
  induction l with
  | nil => simp [aupdate, akeys]
  | cons hd tl ih =>
    rcases hd with ⟨k', v'⟩
    simp only [akeys, List.map_cons] at h ih ⊢
    rw [aupdate]
    by_cases he : k' = k
    · exact absurd (by rw [he]; exact List.mem_cons_self _ _) h
    · rw [if_neg he, List.map_cons, List.cons_append]
      rw [ih (fun hm => h (List.mem_cons_of_mem _ hm))]

/-- `aupdate` leaves entries under other keys alone. -/
theorem mem_aupdate_ne {α : Type} {l : List (String × α)} {k : String} {v : α}
    {p : String × α} (hne : p.1 ≠ k) : p ∈ aupdate k v l ↔ p ∈ l := by
  induction l with
  | nil =>
    simp only [aupdate, List.mem_singleton, List.not_mem_nil, iff_false]
    intro he
    exact hne (by rw [he])
  | cons hd tl ih =>
    rcases hd with ⟨k', v'⟩
    rw [aupdate]
    by_cases he : k' = k
    · rw [if_pos he]
      constructor
      · intro hm
        rcases List.mem_cons.mp hm with h1 | h1
        · exact absurd (by rw [h1]) hne
        · exact List.mem_cons_of_mem _ h1
      · intro hm
        rcases List.mem_cons.mp hm with h1 | h1
        · exact absurd (by rw [h1, he]) hne
        · exact List.mem_cons_of_mem _ h1
    · rw [if_neg he]
      constructor
      · intro hm
        rcases List.mem_cons.mp hm with h1 | h1
        · exact h1 ▸ List.mem_cons_self _ _
        · exact List.mem_cons_of_mem _ (ih.mp h1)
      · intro hm
        rcases List.mem_cons.mp hm with h1 | h1
        · exact h1 ▸ List.mem_cons_self _ _
        · exact List.mem_cons_of_mem _ (ih.mpr h1)

/-- Entries of an updated association list with distinct keys. -/
theorem mem_aupdate {α : Type} {l : List (String × α)} {k : String} {v : α}
    {p : String × α} (hnd : (akeys l).Nodup) (h : p ∈ aupdate k v l) :
    p = (k, v) ∨ (p ∈ l ∧ p.1 ≠ k) := by
  induction l with
  | nil =>
    rw [aupdate] at h
    exact Or.inl (List.mem_singleton.mp h)
  | cons hd tl ih =>
    rcases hd with ⟨k', v'⟩
    rw [akeys, List.map_cons, List.nodup_cons] at hnd
    rw [aupdate] at h
    by_cases he : k' = k
    · rw [if_pos he] at h
      rcases List.mem_cons.mp h with h1 | h1
      · exact Or.inl h1
      · refine Or.inr ⟨List.mem_cons_of_mem _ h1, fun hpe => ?_⟩
        rw [← he] at hpe
        exact hnd.1 (hpe ▸ List.mem_map.mpr ⟨p, h1, rfl⟩)
    · rw [if_neg he] at h
      rcases List.mem_cons.mp h with h1 | h1
      · refine Or.inr ⟨h1 ▸ List.mem_cons_self _ _, by rw [h1]; exact he⟩
      · rcases ih hnd.2 h1 with h2 | ⟨h2, h3⟩
        · exact Or.inl h2
        · exact Or.inr ⟨List.mem_cons_of_mem _ h2, h3⟩

/-- Updated lists keep distinct keys. -/
theorem nodup_aupdate {α : Type} {l : List (String × α)} {k : String} (v : α)
    (hnd : (akeys l).Nodup) : (akeys (aupdate k v l)).Nodup := by
  by_cases h : k ∈ akeys l
  · rw [akeys_aupdate_mem v h]
    exact hnd
  · rw [akeys_aupdate_not_mem v h]
    exact hnd.append (List.nodup_singleton k)
      (fun a ha hb => h ((List.mem_singleton.mp hb) ▸ ha))

/-- A lookup hit after `aupdate` on the same key. -/
theorem alookup_aupdate_self {α : Type} (l : List (String × α)) (k : String) (v : α) :
    alookup k (aupdate k v l) = some v := by
  induction l with
  | nil => simp [aupdate, alookup]
  | cons hd tl ih =>
    rcases hd with ⟨k', v'⟩
    rw [aupdate]
    by_cases he : k' = k
    · rw [if_pos he, alookup, if_pos rfl]
    · rw [if_neg he, alookup, if_neg he]
      exact ih

/-- A lookup after `aupdate` on a different key. -/
theorem alookup_aupdate_ne {α : Type} (l : List (String × α)) {k k' : String} (v : α)
    (hne : k ≠ k') : alookup k' (aupdate k v l) = alookup k' l := by
  induction l with
  | nil => simp [aupdate, alookup, hne]
  | cons hd tl ih =>
    rcases hd with ⟨k0, v0⟩
    rw [aupdate]
    by_cases he : k0 = k
    · rw [if_pos he, alookup, alookup, if_neg hne, if_neg (by rw [he]; exact hne)]
    · rw [if_neg he, alookup, alookup]
      by_cases he' : k0 = k'
      · rw [if_pos he', if_pos he']
      · rw [if_neg he', if_neg he']
        exact ih

/-- Deleting only removes entries. -/
theorem mem_adelete {α : Type} {l : List (String × α)} {k : String} {p : String × α}
    (h : p ∈ adelete k l) : p ∈ l := by
  induction l with
  | nil => simp [adelete] at h
  | cons hd tl ih =>
    rcases hd with ⟨k', v'⟩
    rw [adelete] at h
    by_cases he : k' = k
    · rw [if_pos he] at h
      exact List.mem_cons_of_mem _ h
    · rw [if_neg he] at h
      rcases List.mem_cons.mp h with h1 | h1
      · exact h1 ▸ List.mem_cons_self _ _
      · exact List.mem_cons_of_mem _ (ih h1)

/-- The deleted key is gone when keys are distinct. -/
theorem not_mem_akeys_adelete {α : Type} {l : List (String × α)} {k : String}
    (hnd : (akeys l).Nodup) : k ∉ akeys (adelete k l) := by
  induction l with
  | nil => simp [adelete, akeys]
  | cons hd tl ih =>
    rcases hd with ⟨k', v'⟩
    simp only [akeys, List.map_cons, List.nodup_cons] at hnd
    rw [adelete]
    by_cases he : k' = k
    · rw [if_pos he]
      rw [he] at hnd
      exact fun hm => hnd.1 hm
    · rw [if_neg he]
      simp only [akeys, List.map_cons]
      intro hm
      rcases List.mem_cons.mp hm with h1 | h1
      · exact he h1.symm
      · exact ih hnd.2 h1

/-- Deletion keeps the other keys. -/
theorem akeys_adelete_sub {α : Type} {l : List (String × α)} {k : String} :
    akeys (adelete k l) ⊆ akeys l := by
  intro x hx
  obtain ⟨p, hp, he⟩ := List.mem_map.mp hx
  exact he ▸ List.mem_map.mpr ⟨p, mem_adelete hp, rfl⟩

/-- Deletion preserves distinctness of keys. -/
theorem nodup_adelete {α : Type} {l : List (String × α)} (k : String)
    (hnd : (akeys l).Nodup) : (akeys (adelete k l)).Nodup := by
  induction l with
  | nil => simp [adelete, akeys]
  | cons hd tl ih =>
    rcases hd with ⟨k', v'⟩
    simp only [akeys, List.map_cons, List.nodup_cons] at hnd
    rw [adelete]
    by_cases he : k' = k
    · rw [if_pos he]
      exact hnd.2
    · rw [if_neg he]
      simp only [akeys, List.map_cons, List.nodup_cons]
      exact ⟨fun hm => hnd.1 (akeys_adelete_sub hm), ih hnd.2⟩

/-- `ArbitrageOpportunity` from `analysis/opportunity_finder.py`. -/
structure ArbitrageOpportunity where
  symbol : String
  exchange_buy : String
  exchange_sell : String
  price_buy : ℚ
  price_sell : ℚ
  size_buy : ℚ
  size_sell : ℚ
  spread_pct : ℚ
  funding_rate_buy : Option ℚ := none
  funding_rate_sell : Option ℚ := none
  funding_rate_diff : Option ℚ := none
  duration_seconds : ℚ := 0
  first_seen : ℚ
  last_seen : ℚ
deriving DecidableEq, Repr

/-- The key string of `ArbitrageOpportunity.get_opportunity_key` and of
the tracking dict in `find_opportunities`: `symbol_buy_sell`. -/
def opportunityKey (symbol exchange_buy exchange_sell : String) : String :=
  symbol ++ "_" ++ exchange_buy ++ "_" ++ exchange_sell

/-- `ArbitrageOpportunity.get_opportunity_key`. -/
def getOpportunityKey (opp : ArbitrageOpportunity) : String :=
  opportunityKey opp.symbol opp.exchange_buy opp.exchange_sell

/-- `ArbitrageOpportunity.update_duration`: stamp `last_seen = now` and
recompute the duration. -/
def updateDuration (opp : ArbitrageOpportunity) (now : ℚ) : ArbitrageOpportunity :=
  { opp with last_seen := now, duration_seconds := now - opp.first_seen }

/-- Mutable state of `OpportunityFinder`: the tracked opportunity dict
and the two counters of `self.stats`. -/
structure FinderState where
  opportunities : List (String × ArbitrageOpportunity)
  opportunities_found : ℕ
  opportunities_expired : ℕ
deriving DecidableEq, Repr

/-- Funding rates as passed by the orchestrator:
`{exchange: {symbol: rate}}`, where the rate read off a ticker may
itself be `None`. -/
def FundingRates : Type := List (String × List (String × Option ℚ))

/-- `funding_rates.get(exchange, \x7b\x7d).get(symbol)`. -/
def lookupFundingRate (fr : FundingRates) (exchange symbol : String) : Option ℚ :=
  ((alookup exchange fr).bind (alookup symbol)).join

/-- Lines 144-156 of `find_opportunities`: attach funding rates to an
opportunity (the Python truthiness test on `funding_rates` is empty /
`None` detection), and set the signed diff only when both sides are
known. -/
def attachFunding (fr : FundingRates) (spread : SpreadData)
    (opp : ArbitrageOpportunity) : ArbitrageOpportunity :=
  if (fr : List _).isEmpty then opp
  else
    let frBuy := lookupFundingRate fr spread.exchange_buy spread.symbol
    let frSell := lookupFundingRate fr spread.exchange_sell spread.symbol
    let opp1 := { opp with funding_rate_buy := frBuy, funding_rate_sell := frSell }
    match frBuy, frSell with
    | some b, some s => { opp1 with funding_rate_diff := some (s - b) }
    | _, _ => opp1

/-- Lines 107-112 of `find_opportunities`: overwrite the current
fields of a tracked opportunity from a fresh spread. -/
def applySpread (opp : ArbitrageOpportunity) (spread : SpreadData) :
    ArbitrageOpportunity :=
  { opp with
    price_buy := spread.price_buy, price_sell := spread.price_sell,
    size_buy := spread.size_buy, size_sell := spread.size_sell,
    spread_pct := spread.spread_pct }

/-- Lines 116-125 of `find_opportunities`: a brand-new opportunity
with `first_seen = last_seen = now` (the two `datetime.now()` default
factories are the same instant in this embedding). -/
def newOpportunity (spread : SpreadData) (now : ℚ) : ArbitrageOpportunity :=
  { symbol := spread.symbol, exchange_buy := spread.exchange_buy,
    exchange_sell := spread.exchange_sell,
    price_buy := spread.price_buy, price_sell := spread.price_sell,
    size_buy := spread.size_buy, size_sell := spread.size_sell,
    spread_pct := spread.spread_pct,
    first_seen := now, last_seen := now }

/-- One iteration of the `for spread in spreads` loop of
`find_opportunities` (lines 96-174), acting on
(finder state, `current_keys`, `current_opportunities`). The scroller
side prints do not change the finder state. -/
def processSpread (min_spread_pct now : ℚ) (fr : FundingRates)
    (st : FinderState × List String × List ArbitrageOpportunity)
    (spread : SpreadData) : FinderState × List String × List ArbitrageOpportunity :=
  if spread.spread_pct < min_spread_pct then st
  else
    let key := opportunityKey spread.symbol spread.exchange_buy spread.exchange_sell
    match alookup key st.1.opportunities with
    | some opp0 =>
      let opp2 := attachFunding fr spread (updateDuration (applySpread opp0 spread) now)
      ({ st.1 with opportunities := aupdate key opp2 st.1.opportunities },
        st.2.1 ++ [key], st.2.2 ++ [opp2])
    | none =>
      let opp2 := attachFunding fr spread (newOpportunity spread now)
      ({ opportunities := aupdate key opp2 st.1.opportunities,
         opportunities_found := st.1.opportunities_found + 1,
         opportunities_expired := st.1.opportunities_expired },
        st.2.1 ++ [key], st.2.2 ++ [opp2])

/-- Lines 177-180 of `find_opportunities`: delete every expired key
and bump the `opportunities_expired` counter once per key. -/
def expireFold (st : FinderState) (expired : List String) : FinderState :=
  expired.foldl (fun acc k =>
    { acc with opportunities := adelete k acc.opportunities,
               opportunities_expired := acc.opportunities_expired + 1 }) st

/-- Stable descending insertion by `spread_pct`, modelling
`current_opportunities.sort(key=..., reverse=True)`. -/
def insertOppDesc (x : ArbitrageOpportunity) :
    List ArbitrageOpportunity → List ArbitrageOpportunity
  | [] => [x]
  | y :: ys => if y.spread_pct < x.spread_pct then x :: y :: ys else y :: insertOppDesc x ys

/-- Sort descending by `spread_pct`. -/
def sortOppsDesc (l : List ArbitrageOpportunity) : List ArbitrageOpportunity :=
  l.foldr insertOppDesc []

/-- `OpportunityFinder.find_opportunities` (opportunity_finder.py,
lines 78-185): filter by threshold, create or refresh tracked
opportunities, attach funding rates, expire the keys with no surviving
spread, and return the surviving list sorted by descending spread. -/
def findOpportunities (min_spread_pct : ℚ) (fs : FinderState)
    (spreads : List SpreadData) (fr : FundingRates) (now : ℚ) :
    List ArbitrageOpportunity × FinderState :=
  let step := spreads.foldl (processSpread min_spread_pct now fr) (fs, [], [])
  let fs1 := step.1
  let current_keys := step.2.1
  let expired_keys := (akeys fs1.opportunities).filter
    (fun k => !(current_keys.contains k))
  (sortOppsDesc step.2.2, expireFold fs1 expired_keys)

/-- The keys of the spreads surviving the threshold filter, in order
(the membership content of the loop's `current_keys` set). -/
def survivingKeys (min_spread_pct : ℚ) (spreads : List SpreadData) : List String :=
  (spreads.filter (fun s => !(s.spread_pct < min_spread_pct))).map
    (fun s => opportunityKey s.symbol s.exchange_buy s.exchange_sell)

/-- Attaching funding rates never changes the spread or the seen
stamps. -/
theorem attachFunding_fields (fr : FundingRates) (s : SpreadData)
    (o : ArbitrageOpportunity) :
    (attachFunding fr s o).spread_pct = o.spread_pct ∧
    (attachFunding fr s o).first_seen = o.first_seen ∧
    (attachFunding fr s o).last_seen = o.last_seen := by
  unfold attachFunding
  by_cases h : (fr : List (String × List (String × Option ℚ))).isEmpty
  · rw [if_pos h]
    exact ⟨rfl, rfl, rfl⟩
  · rw [if_neg h]
    cases lookupFundingRate fr s.exchange_buy s.symbol <;>
      cases lookupFundingRate fr s.exchange_sell s.symbol <;>
      exact ⟨rfl, rfl, rfl⟩

/-- A failed lookup means the key is absent. -/
theorem alookup_eq_none {α : Type} {l : List (String × α)} {k : String}
    (h : alookup k l = none) : k ∉ akeys l := by
  induction l with
  | nil => simp [akeys]
  | cons hd tl ih =>
    rcases hd with ⟨k', v'⟩
    rw [alookup] at h
    by_cases he : k' = k
    · rw [if_pos he] at h
      exact absurd h (by simp)
    · rw [if_neg he] at h
      simp only [akeys, List.map_cons]
      intro hm
      rcases List.mem_cons.mp hm with h1 | h1
      · exact he h1.symm
      · exact ih h h1


/-- Loop iteration on a spread below the threshold is a no-op. -/
theorem processSpread_skip (min now : ℚ) (fr : FundingRates)
    (st : FinderState × List String × List ArbitrageOpportunity) (s : SpreadData)
    (hlt : s.spread_pct < min) : processSpread min now fr st s = st := by
  unfold processSpread
  rw [if_pos hlt]

/-- Loop iteration refreshing a tracked key. -/
theorem processSpread_existing (min now : ℚ) (fr : FundingRates) (fs : FinderState)
    (ck : List String) (cur : List ArbitrageOpportunity) (s : SpreadData)
    (opp0 : ArbitrageOpportunity) (hlt : ¬s.spread_pct < min)
    (hlk : alookup (opportunityKey s.symbol s.exchange_buy s.exchange_sell)
      fs.opportunities = some opp0) :
    processSpread min now fr (fs, ck, cur) s =
      ({ fs with
         opportunities :=
              aupdate (opportunityKey s.symbol s.exchange_buy s.exchange_sell)
                (attachFunding fr s (updateDuration (applySpread opp0 s) now))
                fs.opportunities },
        ck ++ [opportunityKey s.symbol s.exchange_buy s.exchange_sell],
        cur ++ [attachFunding fr s (updateDuration (applySpread opp0 s) now)]) := by
  unfold processSpread
  rw [if_neg hlt]
  dsimp only
  rw [hlk]

/-- Loop iteration creating a brand-new opportunity. -/
theorem processSpread_new (min now : ℚ) (fr : FundingRates) (fs : FinderState)
    (ck : List String) (cur : List ArbitrageOpportunity) (s : SpreadData)
    (hlt : ¬s.spread_pct < min)
    (hlk : alookup (opportunityKey s.symbol s.exchange_buy s.exchange_sell)
      fs.opportunities = none) :
    processSpread min now fr (fs, ck, cur) s =
      ({ opportunities :=
              aupdate (opportunityKey s.symbol s.exchange_buy s.exchange_sell)
                (attachFunding fr s (newOpportunity s now)) fs.opportunities,
         opportunities_found := fs.opportunities_found + 1,
         opportunities_expired := fs.opportunities_expired },
        ck ++ [opportunityKey s.symbol s.exchange_buy s.exchange_sell],
        cur ++ [attachFunding fr s (newOpportunity s now)]) := by
  unfold processSpread
  rw [if_neg hlt]
  dsimp only
  rw [hlk]

/-- Invariant carried through the spread loop of
`find_opportunities`: keys stay distinct, new keys are recorded in
`current_keys`, every entry was either refreshed this tick (key
current, spread above threshold, stamps at `now`) or is an untouched
original entry whose key is not current, `current_keys` collects
exactly the surviving keys in order, and the loop never touches the
expired counter. -/
theorem processSpread_foldl_inv (min now : ℚ) (fr : FundingRates) (fs0 : FinderState)
    (hfirst : ∀ p ∈ fs0.opportunities,
      (p.2 : ArbitrageOpportunity).first_seen ≤ now) :
    ∀ (spreads : List SpreadData) (fs : FinderState) (ck : List String)
      (cur : List ArbitrageOpportunity),
      (akeys fs.opportunities).Nodup →
      (∃ nk, akeys fs.opportunities = akeys fs0.opportunities ++ nk ∧
        ∀ k ∈ nk, k ∈ ck) →
      (∀ p ∈ fs.opportunities,
        (p.1 ∈ ck ∧ min ≤ (p.2 : ArbitrageOpportunity).spread_pct ∧
          (p.2 : ArbitrageOpportunity).first_seen ≤ now ∧
          (p.2 : ArbitrageOpportunity).last_seen = now) ∨
        (p.1 ∉ ck ∧ p ∈ fs0.opportunities)) →
      (akeys (spreads.foldl (processSpread min now fr) (fs, ck, cur)).1.opportunities).Nodup ∧
      (∃ nk, akeys (spreads.foldl (processSpread min now fr) (fs, ck, cur)).1.opportunities =
        akeys fs0.opportunities ++ nk ∧
        ∀ k ∈ nk, k ∈ (spreads.foldl (processSpread min now fr) (fs, ck, cur)).2.1) ∧
      (∀ p ∈ (spreads.foldl (processSpread min now fr) (fs, ck, cur)).1.opportunities,
        (p.1 ∈ (spreads.foldl (processSpread min now fr) (fs, ck, cur)).2.1 ∧
          min ≤ (p.2 : ArbitrageOpportunity).spread_pct ∧
          (p.2 : ArbitrageOpportunity).first_seen ≤ now ∧
          (p.2 : ArbitrageOpportunity).last_seen = now) ∨
        (p.1 ∉ (spreads.foldl (processSpread min now fr) (fs, ck, cur)).2.1 ∧
          p ∈ fs0.opportunities)) ∧
      (spreads.foldl (processSpread min now fr) (fs, ck, cur)).2.1 =
        ck ++ survivingKeys min spreads ∧
      (spreads.foldl (processSpread min now fr) (fs, ck, cur)).1.opportunities_expired =
        fs.opportunities_expired := by
  intro spreads
  induction spreads with
  | nil =>
    intro fs ck cur hnd hnk hinv
    exact ⟨hnd, hnk, hinv, by simp [survivingKeys], rfl⟩
  | cons s rest ih =>
    intro fs ck cur hnd hnk hinv
    rw [List.foldl_cons]
    by_cases hlt : s.spread_pct < min
    · rw [processSpread_skip min now fr (fs, ck, cur) s hlt]
      have hsk : survivingKeys min (s :: rest) = survivingKeys min rest := by
        unfold survivingKeys
        rw [List.filter_cons]
        simp [hlt]
      rw [hsk]
      exact ih fs ck cur hnd hnk hinv
    · have hmin : min ≤ s.spread_pct := not_lt.mp hlt
      have hsk : survivingKeys min (s :: rest) =
          opportunityKey s.symbol s.exchange_buy s.exchange_sell ::
            survivingKeys min rest := by
        unfold survivingKeys
        rw [List.filter_cons]
        simp [hlt]
      rcases hlk : alookup (opportunityKey s.symbol s.exchange_buy s.exchange_sell)
          fs.opportunities with _ | opp0
      · -- brand-new key
        rw [processSpread_new min now fr fs ck cur s hlt hlk]
        have hknotin : opportunityKey s.symbol s.exchange_buy s.exchange_sell ∉
            akeys fs.opportunities := alookup_eq_none hlk
        obtain ⟨hf1, hf2, hf3⟩ := attachFunding_fields fr s (newOpportunity s now)
        have hres := ih
          { opportunities := aupdate
              (opportunityKey s.symbol s.exchange_buy s.exchange_sell)
              (attachFunding fr s (newOpportunity s now)) fs.opportunities,
            opportunities_found := fs.opportunities_found + 1,
            opportunities_expired := fs.opportunities_expired }
          (ck ++ [opportunityKey s.symbol s.exchange_buy s.exchange_sell])
          (cur ++ [attachFunding fr s (newOpportunity s now)])
          (nodup_aupdate _ hnd)
          (by
            obtain ⟨nk, h1, h2⟩ := hnk
            refine ⟨nk ++ [opportunityKey s.symbol s.exchange_buy s.exchange_sell],
              ?_, ?_⟩
            · show akeys (aupdate _ _ fs.opportunities) = _
              rw [akeys_aupdate_not_mem _ hknotin, h1, List.append_assoc]
            · intro k hk
              rcases List.mem_append.mp hk with h3 | h3
              · exact List.mem_append.mpr (Or.inl (h2 k h3))
              · exact List.mem_append.mpr (Or.inr h3))
          (by
            intro p hp
            rcases mem_aupdate hnd hp with h1 | ⟨h1, h2⟩
            · left
              rw [h1]
              refine ⟨List.mem_append.mpr (Or.inr (List.mem_singleton.mpr rfl)),
                ?_, ?_, ?_⟩
              · rw [hf1]
                exact hmin
              · rw [hf2]
                exact le_refl now
              · rw [hf3]
                rfl
            · rcases hinv p h1 with ⟨h3, h4⟩ | ⟨h3, h4⟩
              · exact Or.inl ⟨List.mem_append.mpr (Or.inl h3), h4⟩
              · refine Or.inr ⟨?_, h4⟩
                intro hm
                rcases List.mem_append.mp hm with h5 | h5
                · exact h3 h5
                · exact h2 (List.mem_singleton.mp h5))
        refine ⟨hres.1, hres.2.1, hres.2.2.1, ?_, hres.2.2.2.2⟩
        rw [hres.2.2.2.1, hsk, List.append_assoc]
        rfl
      · -- existing key
        rw [processSpread_existing min now fr fs ck cur s opp0 hlt hlk]
        have hmem0 : (opportunityKey s.symbol s.exchange_buy s.exchange_sell, opp0) ∈
            fs.opportunities := alookup_mem hlk
        have hfs0 : opp0.first_seen ≤ now := by
          rcases hinv _ hmem0 with ⟨_, _, h3, _⟩ | ⟨_, h3⟩
          · exact h3
          · exact hfirst _ h3
        have hkin : opportunityKey s.symbol s.exchange_buy s.exchange_sell ∈
            akeys fs.opportunities := List.mem_map.mpr ⟨_, hmem0, rfl⟩
        obtain ⟨hf1, hf2, hf3⟩ := attachFunding_fields fr s
          (updateDuration (applySpread opp0 s) now)
        have hres := ih
          { fs with
            opportunities :=
                 aupdate (opportunityKey s.symbol s.exchange_buy s.exchange_sell)
                   (attachFunding fr s (updateDuration (applySpread opp0 s) now))
                   fs.opportunities }
          (ck ++ [opportunityKey s.symbol s.exchange_buy s.exchange_sell])
          (cur ++ [attachFunding fr s (updateDuration (applySpread opp0 s) now)])
          (nodup_aupdate _ hnd)
          (by
            obtain ⟨nk, h1, h2⟩ := hnk
            refine ⟨nk, ?_, ?_⟩
            · show akeys (aupdate _ _ fs.opportunities) = _
              rw [akeys_aupdate_mem _ hkin, h1]
            · intro k hk
              exact List.mem_append.mpr (Or.inl (h2 k hk)))
          (by
            intro p hp
            rcases mem_aupdate hnd hp with h1 | ⟨h1, h2⟩
            · left
              rw [h1]
              refine ⟨List.mem_append.mpr (Or.inr (List.mem_singleton.mpr rfl)),
                ?_, ?_, ?_⟩
              · rw [hf1]
                exact hmin
              · rw [hf2]
                exact hfs0
              · rw [hf3]
                rfl
            · rcases hinv p h1 with ⟨h3, h4⟩ | ⟨h3, h4⟩
              · exact Or.inl ⟨List.mem_append.mpr (Or.inl h3), h4⟩
              · refine Or.inr ⟨?_, h4⟩
                intro hm
                rcases List.mem_append.mp hm with h5 | h5
                · exact h3 h5
                · exact h2 (List.mem_singleton.mp h5))
        refine ⟨hres.1, hres.2.1, hres.2.2.1, ?_, hres.2.2.2.2⟩
        rw [hres.2.2.2.1, hsk, List.append_assoc]
        rfl

/-- Each expired key bumps the counter exactly once. -/
theorem expireFold_expired (exp : List String) :
    ∀ st : FinderState, (expireFold st exp).opportunities_expired =
      st.opportunities_expired + exp.length := by
  induction exp with
  | nil => intro st; simp [expireFold]
  | cons k rest ih =>
    intro st
    unfold expireFold at ih ⊢
    rw [List.foldl_cons, ih, List.length_cons]
    show st.opportunities_expired + 1 + rest.length =
      st.opportunities_expired + (rest.length + 1)
    omega

/-- Expiring only removes entries. -/
theorem mem_expireFold (exp : List String) :
    ∀ (st : FinderState) (p : String × ArbitrageOpportunity),
      p ∈ (expireFold st exp).opportunities → p ∈ st.opportunities := by
  induction exp with
  | nil => intro st p h; exact h
  | cons k rest ih =>
    intro st p h
    unfold expireFold at h
    rw [List.foldl_cons] at h
    exact mem_adelete (ih _ p h)

/-- Expiring preserves key distinctness. -/
theorem nodup_expireFold (exp : List String) :
    ∀ st : FinderState, (akeys st.opportunities).Nodup →
      (akeys (expireFold st exp).opportunities).Nodup := by
  induction exp with
  | nil => intro st h; exact h
  | cons k rest ih =>
    intro st h
    unfold expireFold
    rw [List.foldl_cons]
    exact ih _ (nodup_adelete k h)

/-- An expired key is gone from the tracker. -/
theorem not_mem_expireFold (exp : List String) :
    ∀ (st : FinderState) (k : String), (akeys st.opportunities).Nodup → k ∈ exp →
      k ∉ akeys (expireFold st exp).opportunities := by
  induction exp with
  | nil => intro st k _ h; simp at h
  | cons k0 rest ih =>
    intro st k hnd hk
    unfold expireFold
    rw [List.foldl_cons]
    by_cases he : k ∈ rest
    · exact ih _ k (nodup_adelete k0 hnd) he
    · have hkk0 : k = k0 := by
        rcases List.mem_cons.mp hk with h1 | h1
        · exact h1
        · exact absurd h1 he
      subst hkk0
      intro hm
      have hsub : akeys (expireFold
          { st with opportunities := adelete k st.opportunities,
                    opportunities_expired := st.opportunities_expired + 1 }
          rest).opportunities ⊆ akeys (adelete k st.opportunities) := by
        intro x hx
        obtain ⟨p, hp, hpe⟩ := List.mem_map.mp hx
        exact hpe ▸ List.mem_map.mpr ⟨p, mem_expireFold rest _ p hp, rfl⟩
      exact (not_mem_akeys_adelete hnd) (hsub hm)

/-- Claim C3: after `find_opportunities`, every surviving tracked
opportunity has `spread_pct ≥ min_spread_pct` and
`last_seen ≥ first_seen`; every previously tracked key with no
surviving spread has been deleted; and `opportunities_expired` grew by
exactly the number of such keys (no grace period in the tracker). -/
theorem c3_find_opportunities_tracker (min now : ℚ) (fs : FinderState)
    (spreads : List SpreadData) (fr : FundingRates)
    (hnd : (akeys fs.opportunities).Nodup)
    (hfirst : ∀ p ∈ fs.opportunities,
      (p.2 : ArbitrageOpportunity).first_seen ≤ now) :
    (∀ p ∈ (findOpportunities min fs spreads fr now).2.opportunities,
      min ≤ (p.2 : ArbitrageOpportunity).spread_pct ∧
      (p.2 : ArbitrageOpportunity).first_seen ≤
        (p.2 : ArbitrageOpportunity).last_seen) ∧
    (∀ k ∈ akeys fs.opportunities, k ∉ survivingKeys min spreads →
      k ∉ akeys (findOpportunities min fs spreads fr now).2.opportunities) ∧
    (findOpportunities min fs spreads fr now).2.opportunities_expired =
      fs.opportunities_expired +
        ((akeys fs.opportunities).filter
          (fun k => !((survivingKeys min spreads).contains k))).length := by
  obtain ⟨Hnd, ⟨nk, Hnk, Hnkck⟩, Hinv, Hck, Hexp⟩ :=
    processSpread_foldl_inv min now fr fs hfirst spreads fs [] [] hnd
      ⟨[], by simp, by simp⟩ (fun p hp => Or.inr ⟨List.not_mem_nil _, hp⟩)
  have hck' : (spreads.foldl (processSpread min now fr) (fs, [], [])).2.1 =
      survivingKeys min spreads := by
    rw [Hck, List.nil_append]
  have hfo : (findOpportunities min fs spreads fr now).2 =
      expireFold (spreads.foldl (processSpread min now fr) (fs, [], [])).1
        ((akeys (spreads.foldl (processSpread min now fr) (fs, [], [])).1.opportunities).filter
          (fun k =>
            !((spreads.foldl (processSpread min now fr) (fs, [], [])).2.1.contains k))) :=
    rfl
  have hexpired : ((akeys (spreads.foldl (processSpread min now fr)
        (fs, [], [])).1.opportunities).filter
      (fun k =>
        !((spreads.foldl (processSpread min now fr) (fs, [], [])).2.1.contains k))) =
      (akeys fs.opportunities).filter
        (fun k => !((survivingKeys min spreads).contains k)) := by
    rw [Hnk, List.filter_append, hck']
    have hnil : nk.filter (fun k => !((survivingKeys min spreads).contains k)) = [] := by
      apply List.filter_eq_nil_iff.mpr
      intro k hk
      have := Hnkck k hk
      rw [hck'] at this
      simp [this]
    rw [hnil, List.append_nil]
  refine ⟨?_, ?_, ?_⟩
  · intro p hp
    rw [hfo] at hp
    have hp1 := mem_expireFold _ _ p hp
    rcases Hinv p hp1 with ⟨_, h2, h3, h4⟩ | ⟨h1, _⟩
    · rw [h4]
      exact ⟨h2, h3⟩
    · exfalso
      have hpk : p.1 ∈ akeys (spreads.foldl (processSpread min now fr)
          (fs, [], [])).1.opportunities := List.mem_map.mpr ⟨p, hp1, rfl⟩
      have hpexp : p.1 ∈ ((akeys (spreads.foldl (processSpread min now fr)
            (fs, [], [])).1.opportunities).filter
          (fun k =>
            !((spreads.foldl (processSpread min now fr) (fs, [], [])).2.1.contains k))) := by
        apply List.mem_filter.mpr
        refine ⟨hpk, ?_⟩
        simp [h1]
      have := not_mem_expireFold _ _ p.1 Hnd hpexp
      rw [← hfo] at this
      exact this (List.mem_map.mpr ⟨p, hp, rfl⟩)
  · intro k hk hks
    rw [hfo]
    apply not_mem_expireFold _ _ k Hnd
    apply List.mem_filter.mpr
    refine ⟨by rw [Hnk]; exact List.mem_append.mpr (Or.inl hk), ?_⟩
    rw [hck']
    simp [hks]
  · rw [hfo, expireFold_expired, Hexp, hexpired]

/-- A demo tracked opportunity created at t = 2 and last refreshed at
t = 3. -/
def demoOldOpp : ArbitrageOpportunity :=
  { symbol := "ETH-USDC-PERP", exchange_buy := "edgex", exchange_sell := "lighter",
    price_buy := 10, price_sell := 11, size_buy := 1, size_sell := 1,
    spread_pct := 10, first_seen := 2, last_seen := 3 }

/-- A demo finder state tracking one key. -/
def demoFinderState : FinderState :=
  { opportunities := [("ETH-USDC-PERP_edgex_lighter", demoOldOpp)],
    opportunities_found := 3, opportunities_expired := 1 }

/-- A demo spread that clears the 0.1 percent threshold. -/
def demoSpread : SpreadData :=
  { symbol := "BTC-USDC-PERP", exchange_buy := "edgex", exchange_sell := "lighter",
    price_buy := 100, price_sell := 102, size_buy := 1, size_sell := 1,
    spread_abs := 2, spread_pct := 2 }

/-- Witness for C3: one tracked key with no surviving spread expires
while the new spread creates a fresh entry. -/
theorem c3_find_opportunities_tracker_witness :
    (∀ p ∈ (findOpportunities (1/10) demoFinderState [demoSpread] [] 5).2.opportunities,
      (1 : ℚ)/10 ≤ (p.2 : ArbitrageOpportunity).spread_pct ∧
      (p.2 : ArbitrageOpportunity).first_seen ≤
        (p.2 : ArbitrageOpportunity).last_seen) ∧
    (∀ k ∈ akeys demoFinderState.opportunities,
      k ∉ survivingKeys (1/10) [demoSpread] →
      k ∉ akeys (findOpportunities (1/10) demoFinderState [demoSpread] [] 5).2.opportunities) ∧
    (findOpportunities (1/10) demoFinderState [demoSpread] [] 5).2.opportunities_expired =
      demoFinderState.opportunities_expired +
        ((akeys demoFinderState.opportunities).filter
          (fun k => !((survivingKeys (1/10) [demoSpread]).contains k))).length :=
  c3_find_opportunities_tracker (1/10) 5 demoFinderState [demoSpread] []
    (by decide) (by decide)

/-- Funding-rate ticker as consumed by the monitor
(`core.adapters.exchanges.models.TickerData`): only `funding_rate` is
read downstream. -/
structure TickerData where
  funding_rate : Option ℚ
deriving DecidableEq, Repr

/-- A queue element as built by the receiver callbacks:
`{'exchange': ..., 'symbol': ..., 'data': ..., 'timestamp': now}`. -/
structure QueueItem (α : Type) where
  exchange : String
  symbol : String
  data : α
  timestamp : ℚ
deriving DecidableEq, Repr

/-- `put_nowait` with the drop-oldest overflow handler of the receiver
callbacks (data_receiver.py, lines 338-366 and 389-410): an
`asyncio.Queue` with positive `maxsize` is full when its size reached
`maxsize`; then the oldest element is dequeued and discarded, the new
element enqueued, and the `dropped` counter bumped; otherwise the
element is enqueued and `received` bumped. -/
def putDropOldest {α : Type} (maxsize : ℕ) (q : List α) (x : α)
    (received dropped : ℕ) : List α × ℕ × ℕ :=
  if 0 < maxsize ∧ maxsize ≤ q.length then (q.tail ++ [x], received, dropped + 1)
  else (q ++ [x], received + 1, dropped)

/-- The validation of `_create_orderbook_callback` (data_receiver.py,
lines 329-335): both sides present and both prices positive. Sizes and
bid/ask ordering are not checked here. -/
def ingestionCheck (orderbook : OrderBookData) : Bool :=
  match orderbook.best_bid, orderbook.best_ask with
  | some bid, some ask => !(bid.price ≤ 0) && !(ask.price ≤ 0)
  | _, _ => false

/-- The orderbook callback of `DataReceiver._create_orderbook_callback`
(lines 320-367): silently discard on a failed check, else enqueue with
drop-oldest. -/
def orderbookCallbackRun (maxsize : ℕ) (q : List (QueueItem OrderBookData))
    (received dropped : ℕ) (exchange symbol : String) (orderbook : OrderBookData)
    (now : ℚ) : List (QueueItem OrderBookData) × ℕ × ℕ :=
  if ingestionCheck orderbook then
    putDropOldest maxsize q
      { exchange := exchange, symbol := symbol, data := orderbook, timestamp := now }
      received dropped
  else (q, received, dropped)

/-- The ticker callback of `DataReceiver._create_ticker_callback`
(lines 380-412): enqueue immediately with drop-oldest, no
validation. -/
def tickerCallbackRun (maxsize : ℕ) (q : List (QueueItem TickerData))
    (received dropped : ℕ) (exchange symbol : String) (ticker : TickerData)
    (now : ℚ) : List (QueueItem TickerData) × ℕ × ℕ :=
  putDropOldest maxsize q
    { exchange := exchange, symbol := symbol, data := ticker, timestamp := now }
    received dropped

/-- Default `orderbook_queue_size` (monitor_config.py, line 38). -/
def orderbookQueueSize : ℕ := 1000

/-- Default `ticker_queue_size` (monitor_config.py, line 39). -/
def tickerQueueSize : ℕ := 500

/-- Two-level lookup `m.get(exchange, \x7b\x7d).get(symbol)`. -/
def alookup2 {α : Type} (exchange symbol : String)
    (m : List (String × List (String × α))) : Option α :=
  (alookup exchange m).bind (alookup symbol)

/-- Two-level update `m[exchange][symbol] = v` on a
`defaultdict(dict)`. -/
def aupdate2 {α : Type} (exchange symbol : String) (v : α)
    (m : List (String × List (String × α))) : List (String × List (String × α)) :=
  aupdate exchange (aupdate symbol v ((alookup exchange m).getD [])) m

/-- `DataProcessor._process_orderbook` (data_processor.py, lines
147-195) restricted to its effect on the State Store: overwrite
`orderbooks[exchange][symbol]` and the matching timestamp. The
scroller side effect is modelled separately. -/
def processOrderbook (orderbooks : List (String × List (String × OrderBookData)))
    (timestamps : List (String × List (String × ℚ)))
    (item : QueueItem OrderBookData) :
    List (String × List (String × OrderBookData)) × List (String × List (String × ℚ)) :=
  (aupdate2 item.exchange item.symbol item.data orderbooks,
   aupdate2 item.exchange item.symbol item.timestamp timestamps)

/-- Two-level lookup after a two-level update. -/
theorem alookup2_aupdate2 {α : Type} (exchange symbol e s : String) (v : α)
    (m : List (String × List (String × α))) :
    alookup2 e s (aupdate2 exchange symbol v m) =
      if e = exchange ∧ s = symbol then some v else alookup2 e s m := by
  unfold alookup2 aupdate2
  by_cases he : e = exchange
  · subst he
    rw [alookup_aupdate_self]
    by_cases hs : s = symbol
    · subst hs
      rw [if_pos ⟨rfl, rfl⟩]
      show alookup s (aupdate s v _) = some v
      rw [alookup_aupdate_self]
    · rw [if_neg (fun h => hs h.2)]
      show alookup s (aupdate symbol v ((alookup e m).getD [])) = _
      rw [alookup_aupdate_ne _ _ (fun h => hs h.symm)]
      rcases hm : alookup e m with _ | l
      · simp [alookup]
      · simp
  · rw [alookup_aupdate_ne _ _ (fun h => he h.symm), if_neg (fun h => he h.1)]

/-- Claim C5: a callback enqueue onto a full queue dequeues and
discards the oldest element, enqueues the new one and bumps the
per-queue dropped counter; onto a non-full queue it appends and bumps
received; the queues never exceed their capacities (defaults 1000 for
orderbooks and 500 for tickers). The callbacks are plain functions:
the producer is never blocked. -/
theorem c5_queue_drop_oldest (obcap tkcap : ℕ)
    (qo : List (QueueItem OrderBookData)) (qt : List (QueueItem TickerData))
    (ro dro rt drt : ℕ) (ex sym : String) (ob : OrderBookData) (tk : TickerData)
    (ts : ℚ)
    (hco : 1 ≤ obcap) (hct : 1 ≤ tkcap)
    (hqo : qo.length ≤ obcap) (hqt : qt.length ≤ tkcap)
    (hvalid : ingestionCheck ob = true) :
    ((qo.length = obcap →
        orderbookCallbackRun obcap qo ro dro ex sym ob ts =
          (qo.tail ++ [{ exchange := ex, symbol := sym, data := ob, timestamp := ts }],
            ro, dro + 1)) ∧
      (qo.length < obcap →
        orderbookCallbackRun obcap qo ro dro ex sym ob ts =
          (qo ++ [{ exchange := ex, symbol := sym, data := ob, timestamp := ts }],
            ro + 1, dro)) ∧
      (orderbookCallbackRun obcap qo ro dro ex sym ob ts).1.length ≤ obcap) ∧
    ((qt.length = tkcap →
        tickerCallbackRun tkcap qt rt drt ex sym tk ts =
          (qt.tail ++ [{ exchange := ex, symbol := sym, data := tk, timestamp := ts }],
            rt, drt + 1)) ∧
      (qt.length < tkcap →
        tickerCallbackRun tkcap qt rt drt ex sym tk ts =
          (qt ++ [{ exchange := ex, symbol := sym, data := tk, timestamp := ts }],
            rt + 1, drt)) ∧
      (tickerCallbackRun tkcap qt rt drt ex sym tk ts).1.length ≤ tkcap) ∧
    orderbookQueueSize = 1000 ∧ tickerQueueSize = 500 := by
  have hgen : ∀ (α : Type) (cap : ℕ) (q : List α) (x : α) (r d : ℕ),
      1 ≤ cap → q.length ≤ cap →
      (q.length = cap → putDropOldest cap q x r d = (q.tail ++ [x], r, d + 1)) ∧
      (q.length < cap → putDropOldest cap q x r d = (q ++ [x], r + 1, d)) ∧
      (putDropOldest cap q x r d).1.length ≤ cap := by
    intro α cap q x r d hc hq
    refine ⟨?_, ?_, ?_⟩
    · intro hfull
      unfold putDropOldest
      rw [if_pos ⟨hc, le_of_eq hfull.symm⟩]
    · intro hlt
      unfold putDropOldest
      rw [if_neg (fun h => absurd hlt (not_lt.mpr h.2))]
    · unfold putDropOldest
      by_cases hfull : 0 < cap ∧ cap ≤ q.length
      · rw [if_pos hfull]
        have : q.length ≠ 0 := by omega
        simp only [List.length_append, List.length_tail, List.length_singleton]
        omega
      · rw [if_neg hfull]
        simp only [List.length_append, List.length_singleton]
        omega
  have hob := hgen (QueueItem OrderBookData) obcap qo
    { exchange := ex, symbol := sym, data := ob, timestamp := ts } ro dro hco hqo
  have htk := hgen (QueueItem TickerData) tkcap qt
    { exchange := ex, symbol := sym, data := tk, timestamp := ts } rt drt hct hqt
  refine ⟨⟨?_, ?_, ?_⟩, ⟨htk.1, htk.2.1, htk.2.2⟩, rfl, rfl⟩
  · intro hfull
    unfold orderbookCallbackRun
    rw [if_pos hvalid]
    exact hob.1 hfull
  · intro hlt
    unfold orderbookCallbackRun
    rw [if_pos hvalid]
    exact hob.2.1 hlt
  · unfold orderbookCallbackRun
    rw [if_pos hvalid]
    exact hob.2.2

/-- A demo queue item. -/
def demoQueueItem : QueueItem OrderBookData :=
  { exchange := "edgex", symbol := "BTC-USDC-PERP", data := demoObA, timestamp := 1 }

/-- A demo ticker queue item. -/
def demoTickerItem : QueueItem TickerData :=
  { exchange := "edgex", symbol := "BTC-USDC-PERP",
    data := { funding_rate := some (1/10000) }, timestamp := 1 }

/-- Witness for C5 at capacity 2 with both queues full. -/
theorem c5_queue_drop_oldest_witness :
    (([demoQueueItem, demoQueueItem].length = 2 →
        orderbookCallbackRun 2 [demoQueueItem, demoQueueItem] 7 0 "lighter"
          "ETH-USDC-PERP" demoObA 3 =
          ([demoQueueItem, demoQueueItem].tail ++
            [{ exchange := "lighter", symbol := "ETH-USDC-PERP", data := demoObA,
               timestamp := 3 }], 7, 0 + 1)) ∧
      ([demoQueueItem, demoQueueItem].length < 2 →
        orderbookCallbackRun 2 [demoQueueItem, demoQueueItem] 7 0 "lighter"
          "ETH-USDC-PERP" demoObA 3 =
          ([demoQueueItem, demoQueueItem] ++
            [{ exchange := "lighter", symbol := "ETH-USDC-PERP", data := demoObA,
               timestamp := 3 }], 7 + 1, 0)) ∧
      (orderbookCallbackRun 2 [demoQueueItem, demoQueueItem] 7 0 "lighter"
        "ETH-USDC-PERP" demoObA 3).1.length ≤ 2) ∧
    (([demoTickerItem].length = 1 →
        tickerCallbackRun 1 [demoTickerItem] 4 2 "lighter" "ETH-USDC-PERP"
          { funding_rate := none } 3 =
          ([demoTickerItem].tail ++
            [{ exchange := "lighter", symbol := "ETH-USDC-PERP",
               data := { funding_rate := none }, timestamp := 3 }], 4, 2 + 1)) ∧
      ([demoTickerItem].length < 1 →
        tickerCallbackRun 1 [demoTickerItem] 4 2 "lighter" "ETH-USDC-PERP"
          { funding_rate := none } 3 =
          ([demoTickerItem] ++
            [{ exchange := "lighter", symbol := "ETH-USDC-PERP",
               data := { funding_rate := none }, timestamp := 3 }], 4 + 1, 2)) ∧
      (tickerCallbackRun 1 [demoTickerItem] 4 2 "lighter" "ETH-USDC-PERP"
        { funding_rate := none } 3).1.length ≤ 1) ∧
    orderbookQueueSize = 1000 ∧ tickerQueueSize = 500 :=
  c5_queue_drop_oldest 2 1 [demoQueueItem, demoQueueItem] [demoTickerItem]
    7 0 4 2 "lighter" "ETH-USDC-PERP" demoObA { funding_rate := none } 3
    (by decide) (by decide) (by decide) (by decide) (by decide)

/-- A quote violating the claimed invariants: bid 10 at size 0 against
ask 5 at size 0, so bid ≥ ask and both sizes are zero, but both sides
are present and both prices are positive. -/
def badOrderbook : OrderBookData :=
  { best_bid := some { price := 10, size := 0 },
    best_ask := some { price := 5, size := 0 } }

/-- Counterexample to claim C2: the ingestion callback checks only
presence of both sides and positivity of both prices, so a quote with
bid_price ≥ ask_price and zero sizes is enqueued and then stored by
the Processing Stage, violating every remaining claimed invariant. -/
theorem c2_counterexample :
    ingestionCheck badOrderbook = true ∧
    orderbookCallbackRun 1000 [] 0 0 "edgex" "BTC-USDC-PERP" badOrderbook 1 =
      ([{ exchange := "edgex", symbol := "BTC-USDC-PERP", data := badOrderbook,
          timestamp := 1 }], 1, 0) ∧
    alookup2 "edgex" "BTC-USDC-PERP"
      (processOrderbook [] []
        { exchange := "edgex", symbol := "BTC-USDC-PERP", data := badOrderbook,
          timestamp := 1 }).1 = some badOrderbook ∧
    badOrderbook.best_bid = some { price := 10, size := 0 } ∧
    badOrderbook.best_ask = some { price := 5, size := 0 } ∧
    ¬((10 : ℚ) < 5) ∧ ¬((0 : ℚ) < 0) := by
  refine ⟨by decide, by decide, ?_, rfl, rfl, by decide, by decide⟩
  show alookup2 "edgex" "BTC-USDC-PERP"
    (aupdate2 "edgex" "BTC-USDC-PERP" badOrderbook []) = some badOrderbook
  rw [alookup2_aupdate2]
  rw [if_pos ⟨rfl, rfl⟩]

/-- Claim C2 as amended: ingestion discards exactly the quotes failing
the check it actually performs (both sides present, both prices
positive); every entry of the State Store after processing a checked
item still passes that check, but nothing stronger: bid < ask and
positive sizes are not guaranteed. -/
theorem c2_amended_ingestion_check (cap : ℕ) (q : List (QueueItem OrderBookData))
    (r d : ℕ) (ex sym : String) (ob : OrderBookData) (ts : ℚ)
    (store : List (String × List (String × OrderBookData)))
    (tstamps : List (String × List (String × ℚ)))
    (item : QueueItem OrderBookData)
    (hitem : ingestionCheck item.data = true)
    (hstore : ∀ e s ob', alookup2 e s store = some ob' → ingestionCheck ob' = true) :
    (ingestionCheck ob = false →
      orderbookCallbackRun cap q r d ex sym ob ts = (q, r, d)) ∧
    (∀ e s ob', alookup2 e s (processOrderbook store tstamps item).1 = some ob' →
      ingestionCheck ob' = true) := by
  constructor
  · intro hbad
    unfold orderbookCallbackRun
    rw [hbad]
    rfl
  · intro e s ob' hlk
    have : alookup2 e s (aupdate2 item.exchange item.symbol item.data store) =
        some ob' := hlk
    rw [alookup2_aupdate2] at this
    by_cases he : e = item.exchange ∧ s = item.symbol
    · rw [if_pos he] at this
      injection this with h
      rw [← h]
      exact hitem
    · rw [if_neg he] at this
      exact hstore e s ob' this

/-- An orderbook failing the ingestion check (ask side missing). -/
def invalidOrderbook : OrderBookData :=
  { best_bid := some { price := 10, size := 1 }, best_ask := none }

/-- Witness for the amended C2. -/
theorem c2_amended_ingestion_check_witness :
    (ingestionCheck invalidOrderbook = false →
      orderbookCallbackRun 1000 [] 0 0 "edgex" "BTC-USDC-PERP" invalidOrderbook 1 =
        ([], 0, 0)) ∧
    (∀ e s ob', alookup2 e s (processOrderbook [] [] demoQueueItem).1 = some ob' →
      ingestionCheck ob' = true) :=
  c2_amended_ingestion_check 1000 [] 0 0 "edgex" "BTC-USDC-PERP" invalidOrderbook 1
    [] [] demoQueueItem (by decide)
    (by intro e s ob' h; simp [alookup2, alookup] at h)

/-- `UIManager._filter_stale_data` (ui_manager.py, lines 474-498):
keep an entry only when the matching UI timestamp exists and is within
`data_timeout_seconds` of `current_time`; venues with no surviving
symbol are dropped from the view. The input mapping is not
modified. -/
def filterStaleEntry {α : Type} (timestamps : List (String × List (String × ℚ)))
    (current_time data_timeout_seconds : ℚ) (p : String × List (String × α)) :
    Option (String × List (String × α)) :=
  match alookup p.1 timestamps with
  | none => none
  | some tmap =>
    let filtered := p.2.filter (fun q =>
      match alookup q.1 tmap with
      | some t => decide (current_time - t ≤ data_timeout_seconds)
      | none => false)
    if filtered.isEmpty then none else some (p.1, filtered)

/-- The whole read-time filter: one `filterStaleEntry` per venue. -/
def filterStaleData {α : Type} (data : List (String × List (String × α)))
    (timestamps : List (String × List (String × ℚ)))
    (current_time data_timeout_seconds : ℚ) : List (String × List (String × α)) :=
  data.filterMap (filterStaleEntry timestamps current_time data_timeout_seconds)

/-- `data_timeout_seconds` of the UI manager (ui_manager.py, line 52)
and of the monitor config (monitor_config.py, line 48). -/
def dataTimeoutSeconds : ℚ := 30

/-- The per-symbol orderbook gathering of
`ArbitrageOrchestrator._analysis_loop` (orchestrator.py, lines
291-295): every stored orderbook of a configured venue is collected;
no timestamp is consulted. -/
def gatherOrderbooks (exchanges : List String)
    (orderbooks : List (String × List (String × OrderBookData)))
    (symbol : String) : List (String × OrderBookData) :=
  exchanges.filterMap (fun ex => (alookup2 ex symbol orderbooks).map (fun ob => (ex, ob)))

/-- A stored orderbook of a configured venue is always gathered by the
analysis loop, regardless of its age. -/
theorem mem_gatherOrderbooks (exchanges : List String)
    (orderbooks : List (String × List (String × OrderBookData)))
    (symbol e : String) (ob : OrderBookData)
    (he : e ∈ exchanges) (hlk : alookup2 e symbol orderbooks = some ob) :
    (e, ob) ∈ gatherOrderbooks exchanges orderbooks symbol := by
  unfold gatherOrderbooks
  exact List.mem_filterMap.mpr ⟨e, he, by rw [hlk]; rfl⟩

/-- No entry under a key whose filter predicate always fails. -/
theorem alookup_filter_none {α : Type} (l : List (String × α)) (s : String)
    (pred : String × α → Bool) (h : ∀ v, pred (s, v) = false) :
    alookup s (l.filter pred) = none := by
  induction l with
  | nil => simp [alookup]
  | cons hd tl ih =>
    rcases hd with ⟨k, v⟩
    rw [List.filter_cons]
    by_cases hp : pred (k, v) = true
    · rw [if_pos hp]
      rw [alookup]
      by_cases he : k = s
      · subst he
        rw [h v] at hp
        exact absurd hp (by simp)
      · rw [if_neg he]
        exact ih
    · rw [if_neg hp]
      exact ih

/-- What a kept venue entry looks like. -/
theorem filterStaleEntry_some {α : Type} {timestamps : List (String × List (String × ℚ))}
    {ct timeout : ℚ} {p q : String × List (String × α)}
    (h : filterStaleEntry timestamps ct timeout p = some q) :
    q.1 = p.1 ∧ ∃ tmap, alookup p.1 timestamps = some tmap ∧
      q.2 = p.2.filter (fun r =>
        match alookup r.1 tmap with
        | some t => decide (ct - t ≤ timeout)
        | none => false) := by
  unfold filterStaleEntry at h
  rcases hm : alookup p.1 timestamps with _ | tmap
  · rw [hm] at h
    simp at h
  · rw [hm] at h
    dsimp only at h
    by_cases hemp : (p.2.filter (fun r =>
        match alookup r.1 tmap with
        | some t => decide (ct - t ≤ timeout)
        | none => false)).isEmpty
    · rw [if_pos hemp] at h
      simp at h
    · rw [if_neg hemp] at h
      injection h with h
      rw [← h]
      exact ⟨rfl, tmap, rfl, rfl⟩

/-- A stale entry (timestamp more than the timeout in the past) is
absent from the filtered view. -/
theorem filterStaleData_stale {α : Type} (data : List (String × List (String × α)))
    (timestamps : List (String × List (String × ℚ)))
    (current_time timeout t : ℚ) (e s : String)
    (ht : alookup2 e s timestamps = some t)
    (hstale : ¬(current_time - t ≤ timeout)) :
    alookup2 e s (filterStaleData data timestamps current_time timeout) = none := by
  obtain ⟨tmap, htm, hts⟩ : ∃ tmap, alookup e timestamps = some tmap ∧
      alookup s tmap = some t := by
    unfold alookup2 at ht
    rcases hm : alookup e timestamps with _ | tmap
    · rw [hm] at ht; simp at ht
    · rw [hm] at ht; exact ⟨tmap, rfl, ht⟩
  induction data with
  | nil => simp [filterStaleData, alookup2, alookup]
  | cons hd tl ih =>
    unfold filterStaleData
    rw [List.filterMap_cons]
    rcases hf : filterStaleEntry timestamps current_time timeout hd with _ | q
    · exact ih
    · obtain ⟨hq1, tmap', htm', hq2⟩ := filterStaleEntry_some hf
      show (alookup e (q :: _)).bind (alookup s) = none
      rcases q with ⟨q1, q2⟩
      dsimp only at hq1 hq2
      by_cases hke : q1 = e
      · subst hke
        rw [alookup, if_pos rfl]
        show alookup s q2 = none
        rw [hq1] at htm
        rw [htm] at htm'
        injection htm' with he2
        subst he2
        rw [hq2]
        exact alookup_filter_none _ _ _ (fun v => by
          dsimp only
          rw [hts]
          simp [hstale])
      · rw [alookup, if_neg hke]
        exact ih

/-- A State Store holding one orderbook for venue `edgex`. -/
def demoStaleStore : List (String × List (String × OrderBookData)) :=
  aupdate2 "edgex" "BTC-USDC-PERP" demoObA []

/-- UI timestamps: that entry was last stamped at t = 0. -/
def demoStaleTimestamps : List (String × List (String × ℚ)) :=
  aupdate2 "edgex" "BTC-USDC-PERP" (0 : ℚ) []

/-- Counterexample to claim C4: at t = 31 the `edgex` entry is older
than 30 s, yet the analysis loop's orderbook gathering (which feeds
the spread computation) still includes it; only the display-side
read-time filter excludes it, and the entry stays in the store. -/
theorem c4_counterexample :
    alookup2 "edgex" "BTC-USDC-PERP" demoStaleTimestamps = some 0 ∧
    (31 : ℚ) - 0 > dataTimeoutSeconds ∧
    ("edgex", demoObA) ∈
      gatherOrderbooks ["edgex", "lighter"] demoStaleStore "BTC-USDC-PERP" ∧
    alookup2 "edgex" "BTC-USDC-PERP"
      (filterStaleData demoStaleStore demoStaleTimestamps 31 dataTimeoutSeconds) =
      none ∧
    alookup2 "edgex" "BTC-USDC-PERP" demoStaleStore = some demoObA := by
  refine ⟨by decide, by norm_num [dataTimeoutSeconds], by decide,
    filterStaleData_stale demoStaleStore demoStaleTimestamps 31 dataTimeoutSeconds 0
      "edgex" "BTC-USDC-PERP" (by decide) (by norm_num [dataTimeoutSeconds]),
    by decide⟩

/-- Claim C4 as amended: the display's snapshot views
(`_filter_stale_data`, timeout 30 s) exclude an entry whose timestamp
is more than 30 s old, while the entry remains stored and the analysis
loop's spread computation still gathers it (no staleness filter on the
analysis path). -/
theorem c4_amended_stale_filter
    (data : List (String × List (String × OrderBookData)))
    (timestamps : List (String × List (String × ℚ))) (now t : ℚ) (e s : String)
    (exchanges : List String)
    (store : List (String × List (String × OrderBookData))) (ob : OrderBookData)
    (ht : alookup2 e s timestamps = some t)
    (hstale : now - t > dataTimeoutSeconds)
    (he : e ∈ exchanges) (hob : alookup2 e s store = some ob) :
    alookup2 e s (filterStaleData data timestamps now dataTimeoutSeconds) = none ∧
    (e, ob) ∈ gatherOrderbooks exchanges store s :=
  ⟨filterStaleData_stale data timestamps now dataTimeoutSeconds t e s ht
      (not_le.mpr hstale),
    mem_gatherOrderbooks exchanges store s e ob he hob⟩

/-- Witness for the amended C4 at the demo store. -/
theorem c4_amended_stale_filter_witness :
    alookup2 "edgex" "BTC-USDC-PERP"
      (filterStaleData demoStaleStore demoStaleTimestamps 31 dataTimeoutSeconds) =
      none ∧
    ("edgex", demoObA) ∈
      gatherOrderbooks ["edgex", "lighter"] demoStaleStore "BTC-USDC-PERP" :=
  c4_amended_stale_filter demoStaleStore demoStaleTimestamps 31 0 "edgex"
    "BTC-USDC-PERP" ["edgex", "lighter"] demoStaleStore demoObA
    (by decide) (by norm_num [dataTimeoutSeconds]) (by decide) (by decide)

/-- UI-side per-key duration tracking entry
(`_ui_opportunity_tracking` values in ui_manager.py). -/
structure UITrack where
  ui_duration_start : ℚ
  last_seen : ℚ
deriving DecidableEq, Repr

/-- A `_disappeared_opportunities` entry: the last known opportunity
and when it vanished. -/
structure DisappearedInfo where
  opportunity : ArbitrageOpportunity
  disappeared_at : ℚ
deriving DecidableEq, Repr

/-- The display-layer state mutated by
`UIManager.update_opportunities`. -/
structure UIState where
  opportunities : List ArbitrageOpportunity
  symbol_occurrence_timestamps : List (String × List ℚ)
  ui_opportunity_tracking : List (String × UITrack)
  disappeared_opportunities : List (String × DisappearedInfo)
deriving DecidableEq, Repr

/-- `_ui_tolerance_seconds` (ui_manager.py, line 71). -/
def uiToleranceSeconds : ℚ := 2

/-- `_occurrence_window_minutes` (ui_manager.py, line 72). -/
def occurrenceWindowMinutes : ℚ := 15

/-- `_display_delay_seconds` (ui_manager.py, line 77). -/
def displayDelaySeconds : ℚ := 5

/-- Lines 293-301 of `update_opportunities`: drop occurrence
timestamps older than the 15-minute window; delete symbols whose list
empties. -/
def pruneOccurrences (occ : List (String × List ℚ)) (now : ℚ) :
    List (String × List ℚ) :=
  occ.filterMap (fun p =>
    let pruned := p.2.filter (fun ts => decide (ts > now - occurrenceWindowMinutes * 60))
    if pruned.isEmpty then none else some (p.1, pruned))

/-- The list produced for one symbol by lines 312-317: append `now`
when the list is empty or the previous entry is more than 1 s old. -/
def recordedList (l : List ℚ) (now : ℚ) : List ℚ :=
  if l.isEmpty ∨ 1 < now - l.getLastD 0 then l ++ [now] else l

/-- Lines 312-317 of `update_opportunities` for one opportunity's
symbol. -/
def recordOccurrence (occ : List (String × List ℚ)) (symbol : String) (now : ℚ) :
    List (String × List ℚ) :=
  aupdate symbol (recordedList ((alookup symbol occ).getD []) now) occ

/-- Lines 319-337 of `update_opportunities`: refresh or restart the
per-key UI duration tracking. -/
def updateTracking (tracking : List (String × UITrack)) (key : String) (now : ℚ) :
    List (String × UITrack) :=
  match alookup key tracking with
  | some tr =>
    if now - tr.last_seen ≤ uiToleranceSeconds then
      aupdate key { tr with last_seen := now } tracking
    else
      aupdate key { ui_duration_start := now, last_seen := now } tracking
  | none => aupdate key { ui_duration_start := now, last_seen := now } tracking

/-- Lines 345-359 of `update_opportunities` for one expired key: if
the key is not yet in the disappeared map, preserve the first matching
opportunity of the previous tick with `disappeared_at = now`. -/
def addDisappeared (dis : List (String × DisappearedInfo))
    (old_opps : List ArbitrageOpportunity) (key : String) (now : ℚ) :
    List (String × DisappearedInfo) :=
  if (alookup key dis).isSome then dis
  else
    match old_opps.find? (fun o => getOpportunityKey o == key) with
    | some o => aupdate key { opportunity := o, disappeared_at := now } dis
    | none => dis

/-- The occurrence effect of the `for opp in opportunities` loop of
lines 306-337 (it is independent of the tracking effect). -/
def occAfterCurrent (occ : List (String × List ℚ))
    (opps : List ArbitrageOpportunity) (now : ℚ) : List (String × List ℚ) :=
  opps.foldl (fun occ opp => recordOccurrence occ opp.symbol now) occ

/-- The tracking effect of the same loop. -/
def trackingAfterCurrent (tracking : List (String × UITrack))
    (opps : List ArbitrageOpportunity) (now : ℚ) : List (String × UITrack) :=
  opps.foldl (fun t opp => updateTracking t (getOpportunityKey opp) now) tracking

/-- Lines 340-343: the tracked keys absent from the current tick. -/
def expiredKeys (tracking : List (String × UITrack)) (current_keys : List String) :
    List String :=
  (akeys tracking).filter (fun k => !(current_keys.contains k))

/-- Lines 345-359 over all expired keys. -/
def disAfterExpired (dis : List (String × DisappearedInfo))
    (old_opps : List ArbitrageOpportunity) (expired : List String) (now : ℚ) :
    List (String × DisappearedInfo) :=
  expired.foldl (fun d k => addDisappeared d old_opps k now) dis

/-- Lines 361-363: drop the tracking entry of an expired key once the
2 s tolerance has passed. -/
def trackingAfterExpired (tracking : List (String × UITrack)) (expired : List String)
    (now : ℚ) : List (String × UITrack) :=
  expired.foldl (fun t k =>
    match alookup k t with
    | some tr =>
      if uiToleranceSeconds < now - tr.last_seen then adelete k t else t
    | none => t) tracking

/-- Lines 366-371: purge disappeared entries older than 5 s. -/
def purgeDisappeared (dis : List (String × DisappearedInfo)) (now : ℚ) :
    List (String × DisappearedInfo) :=
  dis.filter (fun p => !(decide (displayDelaySeconds < now - p.2.disappeared_at)))

/-- Lines 374-376: a reappeared key leaves the disappeared map. -/
def removeReappeared (dis : List (String × DisappearedInfo))
    (current_keys : List String) : List (String × DisappearedInfo) :=
  dis.filter (fun p => !(current_keys.contains p.1))

/-- Lines 380-385 for one entry: while the symbol is still active,
restart the 5 s hold. -/
def resetActiveSymbol (current_symbols : List String) (now : ℚ)
    (v : DisappearedInfo) : DisappearedInfo :=
  if current_symbols.contains v.opportunity.symbol then
    { v with disappeared_at := now }
  else v

/-- Lines 378-385 over the whole disappeared map. -/
def resetActiveSymbols (dis : List (String × DisappearedInfo))
    (current_symbols : List String) (now : ℚ) : List (String × DisappearedInfo) :=
  dis.map (fun p => (p.1, resetActiveSymbol current_symbols now p.2))

/-- `UIManager.update_opportunities` (ui_manager.py, lines 281-387):
prune the occurrence log, record occurrences and refresh tracking for
the current opportunities (the loop's two effects touch disjoint
state), move expired keys into the disappeared map (dropping their
tracking after the 2 s tolerance), purge disappeared entries older
than 5 s, drop reappeared keys from the disappeared map, refresh
`disappeared_at` for symbols still active, and store the new list. -/
def updateOpportunities (s : UIState) (opps : List ArbitrageOpportunity) (now : ℚ) :
    UIState :=
  let occ1 := pruneOccurrences s.symbol_occurrence_timestamps now
  let current_keys := opps.map getOpportunityKey
  let current_symbols := opps.map (fun o => o.symbol)
  let tracking1 := trackingAfterCurrent s.ui_opportunity_tracking opps now
  let occ2 := occAfterCurrent occ1 opps now
  let expired := expiredKeys tracking1 current_keys
  let dis1 := disAfterExpired s.disappeared_opportunities s.opportunities expired now
  let tracking2 := trackingAfterExpired tracking1 expired now
  let dis4 := resetActiveSymbols
    (removeReappeared (purgeDisappeared dis1 now) current_keys) current_symbols now
  { opportunities := opps,
    symbol_occurrence_timestamps := occ2,
    ui_opportunity_tracking := tracking2,
    disappeared_opportunities := dis4 }

/-- `UIManager._fill_opportunities` (ui_manager.py, lines 222-247):
current opportunities plus disappeared entries still within the 5 s
hold, sorted by descending spread. -/
def displayOpportunities (s : UIState) (current_time : ℚ) :
    List ArbitrageOpportunity :=
  sortOppsDesc (s.opportunities ++ (s.disappeared_opportunities.filterMap (fun p =>
    if current_time - p.2.disappeared_at ≤ displayDelaySeconds then
      some p.2.opportunity
    else none)))

/-- The per-row occurrence count of
`UIComponents.create_opportunities_table` (ui_components.py, lines
256-264): the length of the symbol's timestamp list filtered to the
last 15 minutes. -/
def occurrenceCount (symbol_occurrence_timestamps : List (String × List ℚ))
    (symbol : String) (now : ℚ) : ℕ :=
  match alookup symbol symbol_occurrence_timestamps with
  | some l => (l.filter (fun ts => decide (ts > now - 15 * 60))).length
  | none => 0

/-- Deletion leaves other keys' lookups alone. -/
theorem alookup_adelete_ne {α : Type} {l : List (String × α)} {k k' : String}
    (hne : k' ≠ k) : alookup k' (adelete k l) = alookup k' l := by
  induction l with
  | nil => simp [adelete]
  | cons hd tl ih =>
    rcases hd with ⟨k0, v0⟩
    rw [adelete]
    by_cases he : k0 = k
    · rw [if_pos he, alookup, if_neg (by rw [he]; exact fun h => hne h.symm)]
    · rw [if_neg he, alookup, alookup]
      by_cases he' : k0 = k'
      · rw [if_pos he', if_pos he']
      · rw [if_neg he', if_neg he']
        exact ih

/-- An absent key looks up to `none`. -/
theorem alookup_none_of_not_mem {α : Type} {l : List (String × α)} {k : String}
    (h : k ∉ akeys l) : alookup k l = none := by
  induction l with
  | nil => rfl
  | cons hd tl ih =>
    rcases hd with ⟨k0, v0⟩
    simp only [akeys, List.map_cons] at h
    rw [alookup]
    rw [if_neg (fun he => h (by rw [he]; exact List.mem_cons_self _ _))]
    exact ih (fun hm => h (List.mem_cons_of_mem _ hm))

/-- A successful lookup puts the key among the keys. -/
theorem alookup_mem_akeys {α : Type} {l : List (String × α)} {k : String} {v : α}
    (h : alookup k l = some v) : k ∈ akeys l :=
  List.mem_map.mpr ⟨(k, v), alookup_mem h, rfl⟩

/-- With distinct keys, filtering keeps an entry whose predicate
holds. -/
theorem alookup_filter_pos {α : Type} {l : List (String × α)} {k : String} {v : α}
    {p : String × α → Bool} (hnd : (akeys l).Nodup) (h : alookup k l = some v)
    (hp : p (k, v) = true) : alookup k (l.filter p) = some v := by
  induction l with
  | nil => simp [alookup] at h
  | cons hd tl ih =>
    rcases hd with ⟨k0, v0⟩
    simp only [akeys, List.map_cons, List.nodup_cons] at hnd
    rw [alookup] at h
    rw [List.filter_cons]
    by_cases he : k0 = k
    · rw [if_pos he] at h
      injection h with h
      subst he
      subst h
      rw [if_pos hp, alookup, if_pos rfl]
    · rw [if_neg he] at h
      by_cases hph : p (k0, v0) = true
      · rw [if_pos hph, alookup, if_neg he]
        exact ih hnd.2 h
      · rw [if_neg hph]
        exact ih hnd.2 h

/-- With distinct keys, filtering drops an entry whose predicate
fails. -/
theorem alookup_filter_neg {α : Type} {l : List (String × α)} {k : String} {v : α}
    {p : String × α → Bool} (hnd : (akeys l).Nodup) (h : alookup k l = some v)
    (hp : p (k, v) = false) : alookup k (l.filter p) = none := by
  induction l with
  | nil => simp [alookup] at h
  | cons hd tl ih =>
    rcases hd with ⟨k0, v0⟩
    simp only [akeys, List.map_cons, List.nodup_cons] at hnd
    rw [alookup] at h
    rw [List.filter_cons]
    by_cases he : k0 = k
    · rw [if_pos he] at h
      injection h with h
      subst he
      subst h
      rw [hp]
      show alookup k0 (List.filter p tl) = none
      apply alookup_none_of_not_mem
      intro hm
      exact hnd.1 (by
        obtain ⟨q, hq, hqe⟩ := List.mem_map.mp hm
        exact hqe ▸ List.mem_map.mpr ⟨q, List.mem_of_mem_filter hq, rfl⟩)
    · rw [if_neg he] at h
      by_cases hph : p (k0, v0) = true
      · rw [if_pos hph, alookup, if_neg he]
        exact ih hnd.2 h
      · rw [if_neg hph]
        exact ih hnd.2 h

/-- Keys of a filtered association list are among the original
keys. -/
theorem akeys_filter_sub {α : Type} {l : List (String × α)} {p : String × α → Bool} :
    akeys (l.filter p) ⊆ akeys l := by
  intro x hx
  obtain ⟨q, hq, hqe⟩ := List.mem_map.mp hx
  exact hqe ▸ List.mem_map.mpr ⟨q, List.mem_of_mem_filter hq, rfl⟩

/-- Filtering preserves distinctness of keys. -/
theorem nodup_akeys_filter {α : Type} {l : List (String × α)} {p : String × α → Bool}
    (hnd : (akeys l).Nodup) : (akeys (l.filter p)).Nodup := by
  have hsub : List.Sublist (l.filter p) l := List.filter_sublist l
  exact List.Nodup.sublist (List.Sublist.map Prod.fst hsub) hnd

/-- A fold over a pair whose components evolve independently splits
into two folds. -/
theorem foldl_pair_split {α β γ : Type} (g : α → γ → α) (h : β → γ → β) :
    ∀ (l : List γ) (a : α) (b : β),
      l.foldl (fun acc x => (g acc.1 x, h acc.2 x)) (a, b) =
        (l.foldl g a, l.foldl h b) := by
  intro l
  induction l with
  | nil => intro a b; rfl
  | cons x xs ih => intro a b; rw [List.foldl_cons, List.foldl_cons, List.foldl_cons]; exact ih (g a x) (h b x)

/-- Recording is idempotent at one instant: once `now` is the last
entry, a second record within the same call suppresses the append. -/
theorem recordedList_idem (l : List ℚ) (now : ℚ) :
    recordedList (recordedList l now) now = recordedList l now := by
  unfold recordedList
  by_cases hc : l.isEmpty = true ∨ 1 < now - l.getLastD 0
  · rw [if_pos hc]
    have h1 : (l ++ [now]).isEmpty = false := by simp
    have h2 : (l ++ [now]).getLastD 0 = now := List.getLastD_concat 0 now l
    rw [if_neg]
    intro hor
    rcases hor with hor | hor
    · rw [h1] at hor
      exact absurd hor (by simp)
    · rw [h2, sub_self] at hor
      exact absurd hor (by norm_num)
  · rw [if_neg hc, if_neg hc]

/-- The occurrence part of the per-opportunity loop: the symbol's list
is pruned-then-appended when some current opportunity carries the
symbol (idempotently across several), and untouched otherwise. -/
theorem alookup_occFold (now : ℚ) (sym : String) :
    ∀ (opps : List ArbitrageOpportunity) (occ : List (String × List ℚ)),
      alookup sym (opps.foldl
        (fun occ opp => recordOccurrence occ opp.symbol now) occ) =
        if sym ∈ opps.map (fun o => o.symbol) then
          some (recordedList ((alookup sym occ).getD []) now)
        else alookup sym occ := by
  intro opps
  induction opps with
  | nil => intro occ; simp
  | cons o rest ih =>
    intro occ
    rw [List.foldl_cons]
    by_cases he : o.symbol = sym
    · rw [ih (recordOccurrence occ o.symbol now)]
      have hself : alookup sym (recordOccurrence occ o.symbol now) =
          some (recordedList ((alookup sym occ).getD []) now) := by
        rw [he]
        exact alookup_aupdate_self _ _ _
      by_cases hmem : sym ∈ rest.map (fun o => o.symbol)
      · rw [if_pos hmem, hself]
        rw [if_pos (by simp [List.mem_cons, hmem])]
        show some (recordedList (recordedList _ now) now) = _
        rw [recordedList_idem]
      · rw [if_neg hmem, hself, if_pos (by simp [List.mem_cons, he])]
    · rw [ih (recordOccurrence occ o.symbol now)]
      have hne : alookup sym (recordOccurrence occ o.symbol now) = alookup sym occ :=
        alookup_aupdate_ne _ _ he
      by_cases hmem : sym ∈ rest.map (fun o => o.symbol)
      · rw [if_pos hmem, hne, if_pos (by simp [List.mem_cons, hmem])]
      · rw [if_neg hmem, hne, if_neg (by
          simp only [List.map_cons, List.mem_cons]
          rintro (h1 | h1)
          · exact he h1.symm
          · exact hmem h1)]

/-- Every timestamp surviving the prune is inside the window. -/
theorem alookup_pruneOccurrences_mem (occ : List (String × List ℚ)) (now : ℚ)
    (sym : String) (l : List ℚ)
    (h : alookup sym (pruneOccurrences occ now) = some l) :
    ∀ ts ∈ l, ts > now - occurrenceWindowMinutes * 60 := by
  induction occ with
  | nil => simp [pruneOccurrences, alookup] at h
  | cons hd tl ih =>
    rcases hd with ⟨k, kl⟩
    unfold pruneOccurrences at h ih
    rw [List.filterMap_cons] at h
    dsimp only at h
    by_cases hemp : (kl.filter
        (fun ts => decide (ts > now - occurrenceWindowMinutes * 60))).isEmpty
    · rw [if_pos hemp] at h
      exact ih h
    · rw [if_neg hemp] at h
      rw [alookup] at h
      by_cases he : k = sym
      · rw [if_pos he] at h
        injection h with h
        intro ts hts
        rw [← h] at hts
        have := List.mem_filter.mp hts
        simpa using this.2
      · rw [if_neg he] at h
        exact ih h

/-- Members of the recorded list are inside the window when the base
list came from the prune. -/
theorem recordedList_mem_window (occ : List (String × List ℚ)) (now : ℚ)
    (sym : String) :
    ∀ ts ∈ recordedList ((alookup sym (pruneOccurrences occ now)).getD []) now,
      ts > now - occurrenceWindowMinutes * 60 := by
  intro ts hts
  have hbase : ∀ u ∈ (alookup sym (pruneOccurrences occ now)).getD [],
      u > now - occurrenceWindowMinutes * 60 := by
    rcases hm : alookup sym (pruneOccurrences occ now) with _ | l
    · simp
    · simpa using alookup_pruneOccurrences_mem occ now sym l hm
  unfold recordedList at hts
  have hnow : now > now - occurrenceWindowMinutes * 60 := by
    unfold occurrenceWindowMinutes
    norm_num
  by_cases hc : ((alookup sym (pruneOccurrences occ now)).getD []).isEmpty = true ∨
      1 < now - ((alookup sym (pruneOccurrences occ now)).getD []).getLastD 0
  · rw [if_pos hc] at hts
    rcases List.mem_append.mp hts with h1 | h1
    · exact hbase ts h1
    · rw [List.mem_singleton.mp h1]
      exact hnow
  · rw [if_neg hc] at hts
    exact hbase ts hts

/-- Claim C6 as amended: on every update, for each symbol carried by
at least one opportunity of the current tick — brand-new or merely
persisting — the stored occurrence list becomes the pruned old list
with `now` appended unless the previous entry is at most 1 s old
(duplicate suppression); all stored entries lie within the 15-minute
window; and the rendered per-row count equals the stored list's
length. -/
theorem c6_amended_occurrence_recording (s : UIState)
    (opps : List ArbitrageOpportunity) (now : ℚ) (sym : String)
    (hsym : sym ∈ opps.map (fun o => o.symbol)) :
    alookup sym (updateOpportunities s opps now).symbol_occurrence_timestamps =
      some (recordedList
        ((alookup sym (pruneOccurrences s.symbol_occurrence_timestamps now)).getD [])
        now) ∧
    (∀ ts ∈ recordedList
        ((alookup sym (pruneOccurrences s.symbol_occurrence_timestamps now)).getD [])
        now, ts > now - occurrenceWindowMinutes * 60) ∧
    occurrenceCount (updateOpportunities s opps now).symbol_occurrence_timestamps
        sym now =
      (recordedList
        ((alookup sym (pruneOccurrences s.symbol_occurrence_timestamps now)).getD [])
        now).length := by
  have hocc : (updateOpportunities s opps now).symbol_occurrence_timestamps =
      opps.foldl (fun occ opp => recordOccurrence occ opp.symbol now)
        (pruneOccurrences s.symbol_occurrence_timestamps now) := rfl
  have h1 : alookup sym (updateOpportunities s opps now).symbol_occurrence_timestamps =
      some (recordedList
        ((alookup sym (pruneOccurrences s.symbol_occurrence_timestamps now)).getD [])
        now) := by
    rw [hocc, alookup_occFold now sym opps _, if_pos hsym]
  refine ⟨h1, recordedList_mem_window s.symbol_occurrence_timestamps now sym, ?_⟩
  unfold occurrenceCount
  rw [h1]
  dsimp only
  congr 1
  apply List.filter_eq_self.mpr
  intro ts hts
  have := recordedList_mem_window s.symbol_occurrence_timestamps now sym ts hts
  simp only [occurrenceWindowMinutes] at this
  simpa using this

/-- The empty display state at startup. -/
def initialUIState : UIState :=
  { opportunities := [], symbol_occurrence_timestamps := [],
    ui_opportunity_tracking := [], disappeared_opportunities := [] }

/-- A demo opportunity as seen by the display layer. -/
def demoUIOpp : ArbitrageOpportunity :=
  { symbol := "BTC-USDC-PERP", exchange_buy := "edgex", exchange_sell := "lighter",
    price_buy := 60010, price_sell := 60050, size_buy := 1, size_sell := 1,
    spread_pct := 2, first_seen := 0, last_seen := 0 }

/-- Witness for the amended C6. -/
theorem c6_amended_occurrence_recording_witness :
    alookup "BTC-USDC-PERP"
      (updateOpportunities initialUIState [demoUIOpp] 0).symbol_occurrence_timestamps =
      some (recordedList
        ((alookup "BTC-USDC-PERP"
          (pruneOccurrences initialUIState.symbol_occurrence_timestamps 0)).getD [])
        0) ∧
    (∀ ts ∈ recordedList
        ((alookup "BTC-USDC-PERP"
          (pruneOccurrences initialUIState.symbol_occurrence_timestamps 0)).getD [])
        0, ts > 0 - occurrenceWindowMinutes * 60) ∧
    occurrenceCount
        (updateOpportunities initialUIState [demoUIOpp] 0).symbol_occurrence_timestamps
        "BTC-USDC-PERP" 0 =
      (recordedList
        ((alookup "BTC-USDC-PERP"
          (pruneOccurrences initialUIState.symbol_occurrence_timestamps 0)).getD [])
        0).length :=
  c6_amended_occurrence_recording initialUIState [demoUIOpp] 0 "BTC-USDC-PERP"
    (by decide)

/-- Counterexample to claim C6: the display layer appends an
occurrence timestamp for a symbol present in the tick whenever the
previous entry is over 1 s old, even though the key is already tracked
and no brand-new Opportunity was created: after showing the same
opportunity at t = 0 and t = 2, the list holds two timestamps and the
rendered count is 2, though only one creation happened. -/
theorem c6_counterexample :
    alookup "BTC-USDC-PERP"
      (updateOpportunities (updateOpportunities initialUIState [demoUIOpp] 0)
        [demoUIOpp] 2).symbol_occurrence_timestamps = some [0, 2] ∧
    alookup (getOpportunityKey demoUIOpp)
      (updateOpportunities initialUIState [demoUIOpp] 0).ui_opportunity_tracking =
      some { ui_duration_start := 0, last_seen := 0 } ∧
    occurrenceCount
      (updateOpportunities (updateOpportunities initialUIState [demoUIOpp] 0)
        [demoUIOpp] 2).symbol_occurrence_timestamps "BTC-USDC-PERP" 2 = 2 := by
  have hs1 : updateOpportunities initialUIState [demoUIOpp] 0 =
      { opportunities := [demoUIOpp],
        symbol_occurrence_timestamps := [("BTC-USDC-PERP", [0])],
        ui_opportunity_tracking := [("BTC-USDC-PERP_edgex_lighter",
          { ui_duration_start := 0, last_seen := 0 })],
        disappeared_opportunities := [] } := by decide
  have hprune : pruneOccurrences [("BTC-USDC-PERP", [(0:ℚ)])] 2 =
      [("BTC-USDC-PERP", [(0:ℚ)])] := by
    have h0 : decide ((0:ℚ) > 2 - occurrenceWindowMinutes * 60) = true := by
      rw [decide_eq_true_eq]
      norm_num [occurrenceWindowMinutes]
    unfold pruneOccurrences
    rw [List.filterMap_cons]
    dsimp only
    rw [List.filter_cons, h0]
    simp
  have hrec : recordedList [(0:ℚ)] 2 = [0, 2] := by
    unfold recordedList
    rw [if_pos]
    · rfl
    · right
      have hlast : [(0:ℚ)].getLastD 0 = 0 := rfl
      rw [hlast]
      norm_num
  have hocc2 : (updateOpportunities (updateOpportunities initialUIState [demoUIOpp] 0)
      [demoUIOpp] 2).symbol_occurrence_timestamps = [("BTC-USDC-PERP", [0, 2])] := by
    rw [hs1]
    have hsplit : (updateOpportunities
        { opportunities := [demoUIOpp],
          symbol_occurrence_timestamps := [("BTC-USDC-PERP", [0])],
          ui_opportunity_tracking := [("BTC-USDC-PERP_edgex_lighter",
            { ui_duration_start := 0, last_seen := 0 })],
          disappeared_opportunities := [] } [demoUIOpp] 2).symbol_occurrence_timestamps =
        [demoUIOpp].foldl (fun occ opp => recordOccurrence occ opp.symbol 2)
          (pruneOccurrences [("BTC-USDC-PERP", [(0:ℚ)])] 2) := rfl
    rw [hsplit, hprune]
    show recordOccurrence [("BTC-USDC-PERP", [(0:ℚ)])] demoUIOpp.symbol 2 = _
    unfold recordOccurrence
    have hl : (alookup demoUIOpp.symbol [("BTC-USDC-PERP", [(0:ℚ)])]).getD [] =
        [0] := by decide
    rw [hl, hrec]
    decide
  refine ⟨?_, ?_, ?_⟩
  · rw [hocc2]
    decide
  · rw [hs1]
    decide
  · rw [hocc2]
    unfold occurrenceCount
    have hl : alookup "BTC-USDC-PERP" [("BTC-USDC-PERP", [(0:ℚ), 2])] =
        some [0, 2] := by decide
    rw [hl]
    dsimp only
    have hf : List.filter (fun ts => decide (ts > (2:ℚ) - 15 * 60)) [0, 2] =
        [0, 2] := by
      apply List.filter_eq_self.mpr
      intro ts hts
      rw [decide_eq_true_eq]
      rcases List.mem_cons.mp hts with rfl | hts
      · norm_num
      · rw [List.mem_singleton.mp hts]
        norm_num
    rw [hf]
    rfl

/-- Refreshing the tracking of one key leaves other keys alone. -/
theorem alookup_updateTracking_ne (tracking : List (String × UITrack))
    (k key : String) (now : ℚ) (hne : k ≠ key) :
    alookup key (updateTracking tracking k now) = alookup key tracking := by
  unfold updateTracking
  rcases alookup k tracking with _ | tr
  · exact alookup_aupdate_ne _ _ hne
  · dsimp only
    by_cases hc : now - tr.last_seen ≤ uiToleranceSeconds
    · rw [if_pos hc]
      exact alookup_aupdate_ne _ _ hne
    · rw [if_neg hc]
      exact alookup_aupdate_ne _ _ hne

/-- The tracking of a key absent from the tick is untouched by the
current-opportunities loop. -/
theorem alookup_trackingAfterCurrent_ne (opps : List ArbitrageOpportunity)
    (tracking : List (String × UITrack)) (now : ℚ) (key : String)
    (habsent : key ∉ opps.map getOpportunityKey) :
    alookup key (trackingAfterCurrent tracking opps now) = alookup key tracking := by
  unfold trackingAfterCurrent
  induction opps generalizing tracking with
  | nil => rfl
  | cons o rest ih =>
    rw [List.foldl_cons]
    simp only [List.map_cons, List.mem_cons] at habsent
    push_neg at habsent
    rw [ih _ habsent.2]
    exact alookup_updateTracking_ne tracking (getOpportunityKey o) key now
      (fun h => habsent.1 h.symm)

/-- One tracking refresh preserves key distinctness. -/
theorem nodup_updateTracking (tracking : List (String × UITrack)) (k : String)
    (now : ℚ) (hnd : (akeys tracking).Nodup) :
    (akeys (updateTracking tracking k now)).Nodup := by
  unfold updateTracking
  rcases alookup k tracking with _ | tr
  · exact nodup_aupdate _ hnd
  · dsimp only
    by_cases hc : now - tr.last_seen ≤ uiToleranceSeconds
    · rw [if_pos hc]
      exact nodup_aupdate _ hnd
    · rw [if_neg hc]
      exact nodup_aupdate _ hnd

/-- The current-opportunities loop preserves tracking key
distinctness. -/
theorem nodup_trackingAfterCurrent (opps : List ArbitrageOpportunity)
    (tracking : List (String × UITrack)) (now : ℚ)
    (hnd : (akeys tracking).Nodup) :
    (akeys (trackingAfterCurrent tracking opps now)).Nodup := by
  unfold trackingAfterCurrent
  induction opps generalizing tracking with
  | nil => exact hnd
  | cons o rest ih =>
    rw [List.foldl_cons]
    exact ih _ (nodup_updateTracking tracking (getOpportunityKey o) now hnd)

/-- `addDisappeared` leaves a key already in the map alone. -/
theorem alookup_addDisappeared_some (dis : List (String × DisappearedInfo))
    (old_opps : List ArbitrageOpportunity) (k key : String) (now : ℚ)
    (v : DisappearedInfo) (h : alookup key dis = some v) :
    alookup key (addDisappeared dis old_opps k now) = some v := by
  unfold addDisappeared
  by_cases hks : (alookup k dis).isSome
  · rw [if_pos hks]
    exact h
  · rw [if_neg hks]
    rcases old_opps.find? (fun o => getOpportunityKey o == k) with _ | o
    · exact h
    · dsimp only
      by_cases hke : k = key
      · subst hke
        rw [h] at hks
        exact absurd rfl hks
      · rw [alookup_aupdate_ne _ _ hke]
        exact h

/-- `addDisappeared` on another key keeps an absent key absent. -/
theorem alookup_addDisappeared_none (dis : List (String × DisappearedInfo))
    (old_opps : List ArbitrageOpportunity) (k key : String) (now : ℚ)
    (hne : k ≠ key) (h : alookup key dis = none) :
    alookup key (addDisappeared dis old_opps k now) = none := by
  unfold addDisappeared
  by_cases hks : (alookup k dis).isSome
  · rw [if_pos hks]
    exact h
  · rw [if_neg hks]
    rcases old_opps.find? (fun o => getOpportunityKey o == k) with _ | o
    · exact h
    · dsimp only
      rw [alookup_aupdate_ne _ _ hne]
      exact h

/-- `addDisappeared` on an absent key preserves the first matching
opportunity of the previous tick with `disappeared_at = now`. -/
theorem alookup_addDisappeared_set (dis : List (String × DisappearedInfo))
    (old_opps : List ArbitrageOpportunity) (key : String) (now : ℚ)
    (opp : ArbitrageOpportunity)
    (h : alookup key dis = none)
    (hfind : old_opps.find? (fun o => getOpportunityKey o == key) = some opp) :
    alookup key (addDisappeared dis old_opps key now) =
      some { opportunity := opp, disappeared_at := now } := by
  unfold addDisappeared
  rw [if_neg (by rw [h]; simp), hfind]
  exact alookup_aupdate_self _ _ _

/-- `addDisappeared` preserves key distinctness. -/
theorem nodup_addDisappeared (dis : List (String × DisappearedInfo))
    (old_opps : List ArbitrageOpportunity) (k : String) (now : ℚ)
    (hnd : (akeys dis).Nodup) :
    (akeys (addDisappeared dis old_opps k now)).Nodup := by
  unfold addDisappeared
  by_cases hks : (alookup k dis).isSome
  · rw [if_pos hks]
    exact hnd
  · rw [if_neg hks]
    rcases old_opps.find? (fun o => getOpportunityKey o == k) with _ | o
    · exact hnd
    · exact nodup_aupdate _ hnd

/-- The expired-key loop keeps an existing disappeared entry. -/
theorem alookup_disAfterExpired_some (expired : List String) :
    ∀ (dis : List (String × DisappearedInfo))
      (old_opps : List ArbitrageOpportunity) (key : String) (now : ℚ)
      (v : DisappearedInfo), alookup key dis = some v →
      alookup key (disAfterExpired dis old_opps expired now) = some v := by
  induction expired with
  | nil => intro dis old key now v h; exact h
  | cons k rest ih =>
    intro dis old key now v h
    unfold disAfterExpired at ih ⊢
    rw [List.foldl_cons]
    exact ih _ _ _ _ _ (alookup_addDisappeared_some dis old k key now v h)

/-- The expired-key loop installs the hold for an expired key that was
absent from the disappeared map. -/
theorem alookup_disAfterExpired_set (expired : List String) :
    ∀ (dis : List (String × DisappearedInfo))
      (old_opps : List ArbitrageOpportunity) (key : String) (now : ℚ)
      (opp : ArbitrageOpportunity), key ∈ expired →
      alookup key dis = none →
      old_opps.find? (fun o => getOpportunityKey o == key) = some opp →
      alookup key (disAfterExpired dis old_opps expired now) =
        some { opportunity := opp, disappeared_at := now } := by
  induction expired with
  | nil =>
    intro dis old key now opp hk
    simp at hk
  | cons k rest ih =>
    intro dis old key now opp hk h hfind
    unfold disAfterExpired at ih ⊢
    rw [List.foldl_cons]
    by_cases hke : k = key
    · subst hke
      exact alookup_disAfterExpired_some rest _ _ _ _ _
        (alookup_addDisappeared_set dis old k now opp h hfind)
    · have hk' : key ∈ rest := by
        rcases List.mem_cons.mp hk with h1 | h1
        · exact absurd h1.symm hke
        · exact h1
      exact ih _ _ _ _ _ hk' (alookup_addDisappeared_none dis old k key now hke h)
        hfind

/-- The expired-key loop preserves key distinctness of the
disappeared map. -/
theorem nodup_disAfterExpired (expired : List String) :
    ∀ (dis : List (String × DisappearedInfo))
      (old_opps : List ArbitrageOpportunity) (now : ℚ),
      (akeys dis).Nodup → (akeys (disAfterExpired dis old_opps expired now)).Nodup := by
  induction expired with
  | nil => intro dis old now h; exact h
  | cons k rest ih =>
    intro dis old now h
    unfold disAfterExpired at ih ⊢
    rw [List.foldl_cons]
    exact ih _ _ _ (nodup_addDisappeared dis old k now h)

/-- Lookup through the symbol-reset map. -/
theorem alookup_resetActiveSymbols (dis : List (String × DisappearedInfo))
    (cs : List String) (now : ℚ) (key : String) :
    alookup key (resetActiveSymbols dis cs now) =
      (alookup key dis).map (resetActiveSymbol cs now) := by
  unfold resetActiveSymbols
  induction dis with
  | nil => rfl
  | cons hd tl ih =>
    rcases hd with ⟨k0, v0⟩
    rw [List.map_cons]
    rw [alookup, alookup]
    by_cases he : k0 = key
    · rw [if_pos he, if_pos he]
      rfl
    · rw [if_neg he, if_neg he]
      exact ih

/-- Membership is preserved by the descending insertion. -/
theorem mem_insertOppDesc (x y : ArbitrageOpportunity) :
    ∀ l : List ArbitrageOpportunity, y ∈ insertOppDesc x l ↔ y = x ∨ y ∈ l := by
  intro l
  induction l with
  | nil => simp [insertOppDesc]
  | cons hd tl ih =>
    unfold insertOppDesc
    by_cases hc : hd.spread_pct < x.spread_pct
    · rw [if_pos hc]
      simp [List.mem_cons]
    · rw [if_neg hc]
      rw [List.mem_cons, ih, List.mem_cons]
      tauto

/-- Membership is preserved by the display sort. -/
theorem mem_sortOppsDesc (y : ArbitrageOpportunity) :
    ∀ l : List ArbitrageOpportunity, y ∈ sortOppsDesc l ↔ y ∈ l := by
  intro l
  induction l with
  | nil => simp [sortOppsDesc]
  | cons hd tl ih =>
    unfold sortOppsDesc at ih ⊢
    rw [List.foldr_cons, mem_insertOppDesc, ih, List.mem_cons]

/-- The symbol-reset map keeps the key list. -/
theorem akeys_resetActiveSymbols (dis : List (String × DisappearedInfo))
    (cs : List String) (now : ℚ) :
    akeys (resetActiveSymbols dis cs now) = akeys dis := by
  unfold resetActiveSymbols akeys
  rw [List.map_map]
  rfl

/-- The whole disappeared pipeline of one update preserves key
distinctness. -/
theorem nodup_updateOpportunities_disappeared (s : UIState)
    (opps : List ArbitrageOpportunity) (now : ℚ)
    (hndd : (akeys s.disappeared_opportunities).Nodup) :
    (akeys (updateOpportunities s opps now).disappeared_opportunities).Nodup := by
  show (akeys (resetActiveSymbols (removeReappeared (purgeDisappeared _ _) _) _ _)).Nodup
  rw [akeys_resetActiveSymbols]
  exact nodup_akeys_filter (nodup_akeys_filter (nodup_disAfterExpired _ _ _ _ hndd))

/-- Claim C7: an opportunity key present on the previous tick and
absent from the current one is preserved in the disappeared map with
`disappeared_at = now`; it is rendered alongside the current
opportunities while at most 5 s have elapsed since `disappeared_at`;
a later update past the 5 s hold purges it; and a reappearance of the
key removes the entry. -/
theorem c7_disappeared_hold (s : UIState)
    (opps opps2 opps3 : List ArbitrageOpportunity) (now now2 now3 : ℚ)
    (opp : ArbitrageOpportunity) (tr : UITrack)
    (hfind : s.opportunities.find?
      (fun o => getOpportunityKey o == getOpportunityKey opp) = some opp)
    (htr : alookup (getOpportunityKey opp) s.ui_opportunity_tracking = some tr)
    (hdis : alookup (getOpportunityKey opp) s.disappeared_opportunities = none)
    (habsent : getOpportunityKey opp ∉ opps.map getOpportunityKey)
    (hndd : (akeys s.disappeared_opportunities).Nodup) :
    alookup (getOpportunityKey opp)
      (updateOpportunities s opps now).disappeared_opportunities =
      some { opportunity := opp, disappeared_at := now } ∧
    (∀ t, t - now ≤ displayDelaySeconds →
      opp ∈ displayOpportunities (updateOpportunities s opps now) t) ∧
    (getOpportunityKey opp ∉ opps2.map getOpportunityKey →
      displayDelaySeconds < now2 - now →
      alookup (getOpportunityKey opp)
        (updateOpportunities (updateOpportunities s opps now) opps2
          now2).disappeared_opportunities = none) ∧
    (getOpportunityKey opp ∈ opps3.map getOpportunityKey →
      alookup (getOpportunityKey opp)
        (updateOpportunities (updateOpportunities s opps now) opps3
          now3).disappeared_opportunities = none) := by
  have htr1 : alookup (getOpportunityKey opp)
      (trackingAfterCurrent s.ui_opportunity_tracking opps now) = some tr := by
    rw [alookup_trackingAfterCurrent_ne opps _ now _ habsent]
    exact htr
  have hkexp : getOpportunityKey opp ∈ expiredKeys
      (trackingAfterCurrent s.ui_opportunity_tracking opps now)
      (opps.map getOpportunityKey) := by
    unfold expiredKeys
    apply List.mem_filter.mpr
    refine ⟨alookup_mem_akeys htr1, ?_⟩
    simp [habsent]
  have hd1 : alookup (getOpportunityKey opp)
      (disAfterExpired s.disappeared_opportunities s.opportunities
        (expiredKeys (trackingAfterCurrent s.ui_opportunity_tracking opps now)
          (opps.map getOpportunityKey)) now) =
      some { opportunity := opp, disappeared_at := now } :=
    alookup_disAfterExpired_set _ _ _ _ _ _ hkexp hdis hfind
  have hnd1 : (akeys (disAfterExpired s.disappeared_opportunities s.opportunities
      (expiredKeys (trackingAfterCurrent s.ui_opportunity_tracking opps now)
        (opps.map getOpportunityKey)) now)).Nodup :=
    nodup_disAfterExpired _ _ _ _ hndd
  have hd2 : alookup (getOpportunityKey opp)
      (purgeDisappeared (disAfterExpired s.disappeared_opportunities s.opportunities
        (expiredKeys (trackingAfterCurrent s.ui_opportunity_tracking opps now)
          (opps.map getOpportunityKey)) now) now) =
      some { opportunity := opp, disappeared_at := now } := by
    apply alookup_filter_pos hnd1 hd1
    show (!decide (displayDelaySeconds < now - now)) = true
    simp only [Bool.not_eq_true', decide_eq_false_iff_not, not_lt, sub_self]
    norm_num [displayDelaySeconds]
  have hnd2 : (akeys (purgeDisappeared (disAfterExpired s.disappeared_opportunities
      s.opportunities (expiredKeys
        (trackingAfterCurrent s.ui_opportunity_tracking opps now)
        (opps.map getOpportunityKey)) now) now)).Nodup :=
    nodup_akeys_filter hnd1
  have hd3 : alookup (getOpportunityKey opp)
      (removeReappeared (purgeDisappeared (disAfterExpired
        s.disappeared_opportunities s.opportunities
        (expiredKeys (trackingAfterCurrent s.ui_opportunity_tracking opps now)
          (opps.map getOpportunityKey)) now) now) (opps.map getOpportunityKey)) =
      some { opportunity := opp, disappeared_at := now } := by
    apply alookup_filter_pos hnd2 hd2
    show (!((opps.map getOpportunityKey).contains (getOpportunityKey opp))) = true
    simp [habsent]
  have hA : alookup (getOpportunityKey opp)
      (updateOpportunities s opps now).disappeared_opportunities =
      some { opportunity := opp, disappeared_at := now } := by
    show alookup _ (resetActiveSymbols _ _ _) = _
    rw [alookup_resetActiveSymbols, hd3]
    show some (resetActiveSymbol _ now { opportunity := opp, disappeared_at := now }) = _
    unfold resetActiveSymbol
    split <;> rfl
  have hndA : (akeys (updateOpportunities s opps
      now).disappeared_opportunities).Nodup :=
    nodup_updateOpportunities_disappeared s opps now hndd
  refine ⟨hA, ?_, ?_, ?_⟩
  · intro t ht
    unfold displayOpportunities
    rw [mem_sortOppsDesc]
    apply List.mem_append.mpr
    right
    apply List.mem_filterMap.mpr
    refine ⟨(getOpportunityKey opp, { opportunity := opp, disappeared_at := now }),
      alookup_mem hA, ?_⟩
    rw [if_pos ht]
  · intro habs2 hgt
    have hd1' : alookup (getOpportunityKey opp)
        (disAfterExpired (updateOpportunities s opps now).disappeared_opportunities
          (updateOpportunities s opps now).opportunities
          (expiredKeys (trackingAfterCurrent
            (updateOpportunities s opps now).ui_opportunity_tracking opps2 now2)
            (opps2.map getOpportunityKey)) now2) =
        some { opportunity := opp, disappeared_at := now } :=
      alookup_disAfterExpired_some _ _ _ _ _ _ hA
    have hnd1' := nodup_disAfterExpired
      (expiredKeys (trackingAfterCurrent
        (updateOpportunities s opps now).ui_opportunity_tracking opps2 now2)
        (opps2.map getOpportunityKey))
      (updateOpportunities s opps now).disappeared_opportunities
      (updateOpportunities s opps now).opportunities now2 hndA
    have hd2' : alookup (getOpportunityKey opp)
        (purgeDisappeared (disAfterExpired
          (updateOpportunities s opps now).disappeared_opportunities
          (updateOpportunities s opps now).opportunities
          (expiredKeys (trackingAfterCurrent
            (updateOpportunities s opps now).ui_opportunity_tracking opps2 now2)
            (opps2.map getOpportunityKey)) now2) now2) = none := by
      apply alookup_filter_neg hnd1' hd1'
      show (!decide (displayDelaySeconds < now2 - now)) = false
      simp [hgt]
    have hd3' : alookup (getOpportunityKey opp)
        (removeReappeared (purgeDisappeared (disAfterExpired
          (updateOpportunities s opps now).disappeared_opportunities
          (updateOpportunities s opps now).opportunities
          (expiredKeys (trackingAfterCurrent
            (updateOpportunities s opps now).ui_opportunity_tracking opps2 now2)
            (opps2.map getOpportunityKey)) now2) now2)
          (opps2.map getOpportunityKey)) = none := by
      apply alookup_none_of_not_mem
      intro hm
      exact alookup_eq_none hd2' (akeys_filter_sub hm)
    show alookup _ (resetActiveSymbols _ _ _) = _
    rw [alookup_resetActiveSymbols, hd3']
    rfl
  · intro hpresent
    have hd1' : alookup (getOpportunityKey opp)
        (disAfterExpired (updateOpportunities s opps now).disappeared_opportunities
          (updateOpportunities s opps now).opportunities
          (expiredKeys (trackingAfterCurrent
            (updateOpportunities s opps now).ui_opportunity_tracking opps3 now3)
            (opps3.map getOpportunityKey)) now3) =
        some { opportunity := opp, disappeared_at := now } :=
      alookup_disAfterExpired_some _ _ _ _ _ _ hA
    have hnd1' := nodup_disAfterExpired
      (expiredKeys (trackingAfterCurrent
        (updateOpportunities s opps now).ui_opportunity_tracking opps3 now3)
        (opps3.map getOpportunityKey))
      (updateOpportunities s opps now).disappeared_opportunities
      (updateOpportunities s opps now).opportunities now3 hndA
    have hd3' : alookup (getOpportunityKey opp)
        (removeReappeared (purgeDisappeared (disAfterExpired
          (updateOpportunities s opps now).disappeared_opportunities
          (updateOpportunities s opps now).opportunities
          (expiredKeys (trackingAfterCurrent
            (updateOpportunities s opps now).ui_opportunity_tracking opps3 now3)
            (opps3.map getOpportunityKey)) now3) now3)
          (opps3.map getOpportunityKey)) = none := by
      by_cases hp : (!decide (displayDelaySeconds <
          now3 - now)) = true
      · have hd2' : alookup (getOpportunityKey opp)
            (purgeDisappeared (disAfterExpired
              (updateOpportunities s opps now).disappeared_opportunities
              (updateOpportunities s opps now).opportunities
              (expiredKeys (trackingAfterCurrent
                (updateOpportunities s opps now).ui_opportunity_tracking opps3 now3)
                (opps3.map getOpportunityKey)) now3) now3) =
            some { opportunity := opp, disappeared_at := now } :=
          alookup_filter_pos hnd1' hd1' hp
        apply alookup_filter_neg (nodup_akeys_filter hnd1') hd2'
        show (!((opps3.map getOpportunityKey).contains (getOpportunityKey opp))) =
          false
        simp [hpresent]
      · have hd2' : alookup (getOpportunityKey opp)
            (purgeDisappeared (disAfterExpired
              (updateOpportunities s opps now).disappeared_opportunities
              (updateOpportunities s opps now).opportunities
              (expiredKeys (trackingAfterCurrent
                (updateOpportunities s opps now).ui_opportunity_tracking opps3 now3)
                (opps3.map getOpportunityKey)) now3) now3) = none :=
          alookup_filter_neg hnd1' hd1' (by
            rcases hb : (!decide (displayDelaySeconds < now3 - now)) with _ | _
            · rfl
            · exact absurd hb hp)
        apply alookup_none_of_not_mem
        intro hm
        exact alookup_eq_none hd2' (akeys_filter_sub hm)
    show alookup _ (resetActiveSymbols _ _ _) = _
    rw [alookup_resetActiveSymbols, hd3']
    rfl

/-- A display state that already shows `demoUIOpp` and tracks its key. -/
def demoC7State : UIState :=
  { opportunities := [demoUIOpp],
    symbol_occurrence_timestamps := [("BTC-USDC-PERP", [0])],
    ui_opportunity_tracking := [("BTC-USDC-PERP_edgex_lighter",
      { ui_duration_start := 0, last_seen := 0 })],
    disappeared_opportunities := [] }

/-- Witness for C7: the demo opportunity vanishes at t = 3, is held and
rendered at t = 8, is purged by the update at t = 9, and is removed on
reappearance at t = 4. -/
theorem c7_disappeared_hold_witness :
    alookup (getOpportunityKey demoUIOpp)
      (updateOpportunities demoC7State [] 3).disappeared_opportunities =
      some { opportunity := demoUIOpp, disappeared_at := 3 } ∧
    demoUIOpp ∈ displayOpportunities (updateOpportunities demoC7State [] 3) 8 ∧
    alookup (getOpportunityKey demoUIOpp)
      (updateOpportunities (updateOpportunities demoC7State [] 3) []
        9).disappeared_opportunities = none ∧
    alookup (getOpportunityKey demoUIOpp)
      (updateOpportunities (updateOpportunities demoC7State [] 3) [demoUIOpp]
        4).disappeared_opportunities = none := by
  have h := c7_disappeared_hold demoC7State [] [] [demoUIOpp] 3 9 4 demoUIOpp
    { ui_duration_start := 0, last_seen := 0 }
    (by decide) (by decide) (by decide) (by decide) (by decide)
  exact ⟨h.1, h.2.1 8 (by norm_num [displayDelaySeconds]),
    h.2.2.1 (by decide) (by norm_num [displayDelaySeconds]),
    h.2.2.2 (by decide)⟩

/-!
## Annualized funding-rate differential (claim C8)

`RealtimeScroller.print_opportunity` (realtime_scroller.py, lines
150-161) scales the signed 8-hour differential; the opportunities table
(ui_components.py, lines 266-280) first takes the absolute value.
-/

/-- Scroller formula: `diff_8h = rate_diff * 100`, then
`diff_annual = diff_8h * 1095`, with the sign kept. -/
def scrollerFundingAnnual (rate_diff : ℚ) : ℚ :=
  rate_diff * 100 * 1095

/-- Sign prefix printed by the scroller
(`"+" if rate_diff >= 0 else ""`). -/
def scrollerFundingSign (rate_diff : ℚ) : String :=
  if rate_diff ≥ 0 then "+" else ""

/-- Table formula: `rate_diff = abs(opp.funding_rate_diff)`, then the
same `* 100 * 1095` scaling (ui_components.py, lines 270-275). -/
def tableFundingAnnual (funding_rate_diff : ℚ) : ℚ :=
  |funding_rate_diff| * 100 * 1095

/-- Row style for the funding column: `white` exactly when the
differential is present and the (absolute-valued) annual figure is at
least 40 (ui_components.py, lines 297-300). -/
def tableFundingStyle (funding_rate_diff : Option ℚ) : String :=
  match funding_rate_diff with
  | none => "dim white"
  | some d => if tableFundingAnnual d ≥ 40 then "white" else "dim white"

/-- Counterexample to claim C8: for the 8-hour differential −1/10000
the scroller derives the signed annual value −10.95 % while the table
derives +10.95 %; the table's displayed figure is NOT the signed
formula, so the absolute value is used as a derived display value and
not only for coloring. -/
theorem c8_counterexample :
    scrollerFundingAnnual (-(1/10000)) = -(1095/100) ∧
    tableFundingAnnual (-(1/10000)) = 1095/100 ∧
    tableFundingAnnual (-(1/10000)) ≠ (-(1/10000)) * 100 * 1095 := by
  refine ⟨?_, ?_, ?_⟩
  · unfold scrollerFundingAnnual
    norm_num
  · unfold tableFundingAnnual
    rw [abs_neg, abs_of_nonneg (by norm_num : (0:ℚ) ≤ 1/10000)]
    norm_num
  · unfold tableFundingAnnual
    rw [abs_neg, abs_of_nonneg (by norm_num : (0:ℚ) ≤ 1/10000)]
    norm_num

/-- Claim C8 (amended): the scroller annualizes the signed 8-hour
differential as `d * 100 * 1095`; the opportunities table annualizes
the absolute value `|d| * 100 * 1095`, so the two agree exactly on
nonnegative differentials and are negatives of each other on negative
ones; the table's 40 % coloring threshold is applied to the
absolute-valued annual figure. -/
theorem c8_amended_annual_formula (d : ℚ) :
    scrollerFundingAnnual d = d * 100 * 1095 ∧
    tableFundingAnnual d = |d| * 100 * 1095 ∧
    (0 ≤ d → tableFundingAnnual d = scrollerFundingAnnual d) ∧
    (d < 0 → tableFundingAnnual d = -(scrollerFundingAnnual d)) ∧
    (tableFundingStyle (some d) = "white" ↔ tableFundingAnnual d ≥ 40) := by
  refine ⟨rfl, rfl, ?_, ?_, ?_⟩
  · intro h
    unfold tableFundingAnnual scrollerFundingAnnual
    rw [abs_of_nonneg h]
  · intro h
    unfold tableFundingAnnual scrollerFundingAnnual
    rw [abs_of_neg h]
    ring
  · show (if tableFundingAnnual d ≥ 40 then "white" else "dim white") = "white" ↔ _
    constructor
    · intro h
      by_contra hn
      rw [if_neg hn] at h
      exact absurd h (by decide)
    · intro h
      rw [if_pos h]

/-- Witness for the amended C8 at the differential −1/10000. -/
theorem c8_amended_annual_formula_witness :
    tableFundingAnnual (-(1/10000)) =
      -(scrollerFundingAnnual (-(1/10000))) ∧
    scrollerFundingAnnual (-(1/10000)) = (-(1/10000)) * 100 * 1095 :=
  ⟨(c8_amended_annual_formula (-(1/10000))).2.2.2.1 (by norm_num),
   (c8_amended_annual_formula (-(1/10000))).1⟩

/-!
## Realtime scroller orderbook lines (claim C9)

`RealtimeScroller.print_orderbook_update` (realtime_scroller.py, lines
43-101) and the call made to it by `DataProcessor._process_orderbook`
(data_processor.py, lines 176-190). Python binds keyword arguments
before the body runs: a keyword the signature does not accept raises
`TypeError` at the call and the method body never executes;
`_process_orderbook` wraps the call in `except Exception`, so the
failure is swallowed. Numeric string formatting is simplified to
`toString`; only the fact that a line is produced matters here.
-/

/-- Mutable state of `RealtimeScroller` relevant to orderbook lines. -/
structure ScrollerState where
  throttle_interval : ℚ
  last_print_time : ℚ
  last_prices : List (String × List (String × ℚ))
  recent_messages : List String
  symbol_last_shown : List (String × ℚ)
  enabled : Bool
deriving DecidableEq, Repr

/-- `deque(maxlen=n).append`: drop from the left when full. -/
def dequeAppend (maxlen : Nat) (msgs : List String) (m : String) : List String :=
  let l := msgs ++ [m]
  if maxlen < l.length then l.drop (l.length - maxlen) else l

/-- The formatted scroller line (f-string of realtime_scroller.py,
lines 95-99, with numeric formatting simplified). -/
def orderbookLine (exchange symbol : String)
    (bid_price bid_size ask_price ask_size : ℚ) : String :=
  let spread := ask_price - bid_price
  let spread_pct := if bid_price > 0 then spread / bid_price * 100 else 0
  exchange ++ " " ++ symbol ++
    " | bid: " ++ toString bid_price ++ "x" ++ toString bid_size ++
    " | ask: " ++ toString ask_price ++ "x" ++ toString ask_size ++
    " | spread: " ++ toString spread ++ "(" ++ toString spread_pct ++ ")"

/-- `RealtimeScroller.print_orderbook_update`: 500 ms throttle,
0.01 % mid-price-change gate, then append one line. -/
def printOrderbookUpdate (st : ScrollerState) (exchange symbol : String)
    (bid_price bid_size ask_price ask_size : ℚ) (now : ℚ) : ScrollerState :=
  if !st.enabled then st
  else if now - st.last_print_time < st.throttle_interval then st
  else
    let last_price := (alookup2 exchange symbol st.last_prices).getD 0
    let current_price := (bid_price + ask_price) / 2
    if last_price > 0 ∧ |current_price - last_price| / last_price * 100 < 1/100 then
      st
    else
      { st with
        last_prices := aupdate2 exchange symbol current_price st.last_prices,
        recent_messages := dequeAppend 20 st.recent_messages
          (orderbookLine exchange symbol bid_price bid_size ask_price ask_size),
        last_print_time := now }

/-- Keyword parameters accepted by
`RealtimeScroller.print_orderbook_update` (realtime_scroller.py,
lines 43-51). -/
def printOrderbookParams : List String :=
  ["exchange", "symbol", "bid_price", "bid_size", "ask_price", "ask_size"]

/-- Keywords passed at the call site in
`DataProcessor._process_orderbook` (data_processor.py, lines 177-185). -/
def processOrderbookCallKeywords : List String :=
  ["exchange", "symbol", "bid_price", "bid_size", "ask_price", "ask_size",
   "funding_rate"]

/-- A keyword call binds iff every passed keyword is an accepted
parameter; otherwise Python raises `TypeError` before the body runs. -/
def kwargsAccepted (params args : List String) : Bool :=
  args.all (fun a => params.contains a)

/-- The scroller side effect of `DataProcessor._process_orderbook`:
when both book sides are present it calls `print_orderbook_update`
with the keywords above inside `try/except Exception`, so a keyword
mismatch leaves the scroller state unchanged. -/
def processOrderbookScroller (scroll : ScrollerState)
    (item : QueueItem OrderBookData) (now : ℚ) : ScrollerState :=
  match item.data.best_bid, item.data.best_ask with
  | some b, some a =>
      if kwargsAccepted printOrderbookParams processOrderbookCallKeywords then
        printOrderbookUpdate scroll item.exchange item.symbol
          b.price b.size a.price a.size now
      else
        scroll
  | _, _ => scroll

/-- Claim C9 (code bug): the Processing Stage never appends a scroller
line. The call site passes a `funding_rate` keyword the method does
not accept, so every call raises `TypeError` (swallowed by the
`except`), and the scroller state is unchanged for every update - even
one that passes the 500 ms throttle and the 0.01 % mid-price gate, for
which a correctly bound call would append exactly one line. -/
theorem c9_scroller_line_never_appended (scroll : ScrollerState)
    (item : QueueItem OrderBookData) (b a : PriceLevel) (now : ℚ)
    (hbid : item.data.best_bid = some b) (hask : item.data.best_ask = some a)
    (hen : scroll.enabled = true)
    (hth : scroll.throttle_interval ≤ now - scroll.last_print_time)
    (hlp : alookup2 item.exchange item.symbol scroll.last_prices = none)
    (hlen : scroll.recent_messages.length < 20) :
    kwargsAccepted printOrderbookParams processOrderbookCallKeywords = false ∧
    processOrderbookScroller scroll item now = scroll ∧
    (printOrderbookUpdate scroll item.exchange item.symbol
        b.price b.size a.price a.size now).recent_messages =
      scroll.recent_messages ++
        [orderbookLine item.exchange item.symbol b.price b.size a.price a.size] := by
  refine ⟨by decide, ?_, ?_⟩
  · simp only [processOrderbookScroller, hbid, hask]
    rw [if_neg (by decide)]
  · unfold printOrderbookUpdate
    rw [if_neg (by simp [hen]), if_neg (not_lt.mpr hth)]
    simp only [hlp, Option.getD_none]
    rw [if_neg (fun h => lt_irrefl (0 : ℚ) h.1)]
    show dequeAppend 20 scroll.recent_messages _ = _
    unfold dequeAppend
    rw [if_neg (by
      rw [List.length_append]
      simp only [List.length_singleton]
      omega)]

/-- A fresh scroller as the orchestrator builds it
(`RealtimeScroller(throttle_ms=500)`). -/
def demoScroller : ScrollerState :=
  { throttle_interval := 1/2, last_print_time := 0, last_prices := [],
    recent_messages := [], symbol_last_shown := [], enabled := true }

/-- The first valid orderbook update: edgex BTC-USDC-PERP,
bid 100 x 1, ask 101 x 1, arriving at t = 1 s. -/
def demoC9Item : QueueItem OrderBookData :=
  { exchange := "edgex", symbol := "BTC-USDC-PERP",
    data := { best_bid := some { price := 100, size := 1 },
              best_ask := some { price := 101, size := 1 } },
    timestamp := 1 }

/-- Witness for C9 at the first valid update on a fresh scroller:
throttle and price gates both pass, yet the keyword call fails to bind
and the scroller is unchanged; the correctly bound call would have
appended one line. -/
theorem c9_scroller_line_never_appended_witness :
    kwargsAccepted printOrderbookParams processOrderbookCallKeywords = false ∧
    processOrderbookScroller demoScroller demoC9Item 1 = demoScroller ∧
    (printOrderbookUpdate demoScroller "edgex" "BTC-USDC-PERP"
        100 1 101 1 1).recent_messages =
      demoScroller.recent_messages ++
        [orderbookLine "edgex" "BTC-USDC-PERP" 100 1 101 1] :=
  c9_scroller_line_never_appended demoScroller demoC9Item
    { price := 100, size := 1 } { price := 101, size := 1 } 1
    rfl rfl rfl (by norm_num [demoScroller]) rfl (by decide)
